import Mathlib

/-!
Shallow embedding of the interaction-scripting engine of the
`For_valentines` repository, together with proofs of the spec's
testable properties.

The embedding translates the relevant JavaScript into Lean:

* `PropTable` / `PropVal` model the lowercased property bags produced by
  `parseProps` (src/valentine-game/systems/TiledProps.js).
* `getNumberedKeys` embeds `EpiloguePartyScene._getNumberedKeys`;
  `getNumberedPropLines` embeds `_getNumberedPropLines` (src/unnamed/part_003).
* `flagKeyScene` embeds `EpiloguePartyScene._flagKey`; `flagKeyPipe`
  embeds `flagKey` from src/unnamed/part_003.
* `GState` models the mutable `GameState` record (src/valentine-game/systems/
  TiledProps.js, GameState section) as far as the verified effects touch it.
* `DBox` and its operations model `systems/DialogueBox.js`.
* `denyResolve` models the deny-zone branch of `updateAutoTriggerZones`
  (src/valentine-game/systems/TiledProps.js).
* `npcTick` models `EpiloguePartyScene.updateMovingNpcs` for one NPC.
* `frameRealTime` models the real-time bookkeeping of
  `EpiloguePartyScene.baseUpdateFrame` / `_tickGlobalRealTime`.

JavaScript numbers are modelled as `ℚ` (or `ℝ` where the code computes
Euclidean norms via `Math.hypot`); machine floating point is out of scope.
-/

namespace Valentine

/-- Scalar property values as they arrive from the level JSON.  Tiled
property values are typed: string, number, or bool.  `Option PropVal`
models a possibly-absent key (JS `undefined`). -/
inductive PropVal where
  | s (v : String)
  | n (v : ℚ)
  | b (v : Bool)
deriving DecidableEq, Repr

/-- A parsed property table (`parseProps` output): lowercased key to value;
`none` models an absent key. -/
def PropTable : Type := String → Option PropVal

/-- Build a concrete property table from an association list (for tests
and witnesses). -/
def tableOf (l : List (String × PropVal)) : PropTable :=
  fun k => (l.lookup k)

/-- ASCII whitespace stripped by JS `String.prototype.trim` (the level data
only ever contains these). -/
def isWS (c : Char) : Bool := c = ' ' || c = '\t' || c = '\n' || c = '\r'

/-- JS `s.trim()`. -/
def jsTrim (s : String) : String :=
  ⟨((s.data.dropWhile isWS).reverse.dropWhile isWS).reverse⟩

/-- ASCII lowercasing of one character (JS `toLowerCase` on the ASCII
identifiers used by the level data). -/
def lowerChar (c : Char) : Char :=
  if 'A' ≤ c ∧ c ≤ 'Z' then Char.ofNat (c.toNat + 32) else c

/-- JS `s.toLowerCase()`. -/
def jsToLower (s : String) : String := ⟨s.data.map lowerChar⟩

/-- JS `String(v ?? "")`: stringify a possibly-absent property value. -/
def jsStr : Option PropVal → String
  | none => ""
  | some (.s v) => v
  | some (.n q) => toString q
  | some (.b true) => "true"
  | some (.b false) => "false"

/-- JS truthiness of a possibly-absent property value
(`undefined`, `""`, `0` and `false` are falsy). -/
def jsTruthy : Option PropVal → Bool
  | none => false
  | some (.s v) => v ≠ ""
  | some (.n q) => q ≠ 0
  | some (.b b) => b

/-- JS strict `=== true` test on a possibly-absent property value. -/
def jsIsTrue (v : Option PropVal) : Bool := v = some (.b true)

/-- Numeric value of a list of decimal digits. -/
def digitsVal (l : List Char) : ℕ :=
  l.foldl (fun a c => a * 10 + (c.toNat - 48)) 0

/-- Parse a nonempty all-digit character list; `none` models `NaN`. -/
def parseDigits (l : List Char) : Option ℚ :=
  if l ≠ [] ∧ l.all Char.isDigit then some (digitsVal l) else none

/-- `Number(str)` on the string fragment actually used by the level data:
an optional sign followed by decimal digits (`""` parses as `0`).
`none` models `NaN`. -/
def strNum (v : String) : Option ℚ :=
  match (jsTrim v).data with
  | [] => some 0
  | '-' :: rest => (parseDigits rest).map (fun q => -q)
  | l => parseDigits l

/-- JS `Number(v)` on a possibly-absent property value; `none` models `NaN`. -/
def jsNum : Option PropVal → Option ℚ
  | none => none
  | some (.n q) => some q
  | some (.b true) => some 1
  | some (.b false) => some 0
  | some (.s v) => strNum v

/-- JS `Number(v ?? d)` where a present but non-numeric value also falls
back to `d` (the `NaN` propagation paths are not exercised by the data). -/
def jsNumOr (v : Option PropVal) (d : ℚ) : ℚ :=
  match v with
  | none => d
  | some x => (jsNum (some x)).getD d

-- -------------------------------------------------------------------
-- Numbered property collectors
-- -------------------------------------------------------------------

/-- The `for (let i = 2; i <= 99; i++) { if (props[k] === undefined) break;
keys.push(k) }` loop of `EpiloguePartyScene._getNumberedKeys`, with the
iteration count made explicit as fuel (starting index `i`, 98 iterations). -/
def numberedTail (props : PropTable) (p : String) : ℕ → ℕ → List String
  | _, 0 => []
  | i, fuel + 1 =>
    let k := p ++ toString i
    if (props k).isSome then k :: numberedTail props p (i + 1) fuel else []

/-- `EpiloguePartyScene._getNumberedKeys(props, baseKey)`: the base key if
present, then `baseKey2`, `baseKey3`, … up to 99, stopping at the first
absent numbered key.  Note the numbered loop runs whether or not the base
key itself is present. -/
def getNumberedKeys (props : PropTable) (baseKey : String) : List String :=
  (if (props baseKey).isSome then [baseKey] else []) ++ numberedTail props baseKey 2 98

/-- The `for (let i = 2; i <= 50; i += 1)` loop of `_getNumberedPropLines`
(src/unnamed/part_003): stops at the first key not in the table, pushes the
trimmed value of each present key whose trimmed value is nonempty. -/
def linesTail (props : PropTable) (p : String) : ℕ → ℕ → List String
  | _, 0 => []
  | i, fuel + 1 =>
    let k := p ++ toString i
    match props k with
    | none => []
    | some v =>
      (if jsTrim (jsStr (some v)) ≠ "" then [jsTrim (jsStr (some v))] else [])
        ++ linesTail props p (i + 1) fuel

/-- `_getNumberedPropLines(props, baseKey)` from src/unnamed/part_003. -/
def getNumberedPropLines (props : PropTable) (baseKey : String) : List String :=
  let k0 := jsToLower (jsTrim baseKey)
  if k0 = "" then []
  else
    (match props k0 with
     | some v => if jsTrim (jsStr (some v)) ≠ "" then [jsTrim (jsStr (some v))] else []
     | none => [])
    ++ linesTail props k0 2 49

/-- JS `Array.prototype.join(sep)`: `[] → ""`, singleton unchanged,
otherwise interleave the separator. -/
def joinSep (sep : String) : List String → String
  | [] => ""
  | [x] => x
  | x :: y :: xs => x ++ sep ++ joinSep sep (y :: xs)

/-- `EpiloguePartyScene._flagKey(prefix, ...parts)`:
`` `${prefix}__${parts.map(String).join("__")}` `` (the call sites pass
strings, so `String(p)` is the identity). -/
def flagKeyScene (cat : String) (parts : List String) : String :=
  cat ++ "__" ++ joinSep "__" parts

/-- `flagKey(...parts)` from src/unnamed/part_003:
`parts.filter(Boolean).join("|")` (on strings, `Boolean` keeps exactly the
nonempty ones). -/
def flagKeyPipe (parts : List String) : String :=
  joinSep "|" (parts.filter (fun s => s ≠ ""))

/-- Character-list version of `joinSep` (used to reason about the codec). -/
def joinSepL (sep : List Char) : List (List Char) → List Char
  | [] => []
  | [x] => x
  | x :: y :: xs => x ++ sep ++ joinSepL sep (y :: xs)

/-- Decoder step: drop the first component and the following separator of
length `m + 1` made of copies of `stop`. -/
def decodeRest (stop : Char) (m : ℕ) (l : List Char) : List Char :=
  l.drop ((l.takeWhile (fun c => c ≠ stop)).length + (m + 1))

/-- Decoder for `joinSepL (List.replicate (m+1) stop)`: split the joined
list back into its separator-free components. -/
def decodeParts (stop : Char) (m : ℕ) (l : List Char) : List (List Char) :=
  if _hl : l = [] then []
  else l.takeWhile (fun c => c ≠ stop) :: decodeParts stop m (decodeRest stop m l)
termination_by l.length
decreasing_by
  simp only [decodeRest, List.length_drop]
  have hp : 0 < l.length := List.length_pos.mpr _hl
  omega

/-- A string none of whose characters is `c`. -/
def charFree (c : Char) (s : String) : Prop := ∀ a ∈ s.data, a ≠ c

instance (c : Char) (s : String) : Decidable (charFree c s) :=
  inferInstanceAs (Decidable (∀ a ∈ s.data, a ≠ c))

-- -------------------------------------------------------------------
-- GameState and once-guarded effects
-- -------------------------------------------------------------------

/-- The slice of the shared `GameState` record (systems/GameState.js)
touched by the verified effects: the generic persistence flag map and the
help/score totals. -/
structure GState where
  flags : String → Option PropVal
  helpScore : ℚ
  score : ℚ

/-- `_setAnyFlag(key, value)` (EpiloguePartyScene / part_003). -/
def setAnyFlag (gs : GState) (k : String) (v : PropVal) : GState :=
  { gs with flags := fun k' => if k' = k then some v else gs.flags k' }

/-- `addHelp(n)` from systems/GameState.js: `helpScore += Number(n) || 0`. -/
def addHelpFn (n : ℚ) (gs : GState) : GState :=
  { gs with helpScore := gs.helpScore + n }

/-- The guard flag used by `runOnceGuard` inside
`EpiloguePartyScene._appendLineMetaActions`:
`_flagKey("__line_effect_once", sceneKey, id, k, type, extra)`. -/
def lineOnceFlag (sceneKey id k ty extra : String) : String :=
  flagKeyScene "__line_effect_once" [sceneKey, id, k, ty, extra]

/-- The `addhelp` line action pushed by `_appendLineMetaActions`
(lines 1561–1568): `if (!runOnceGuard("addhelp")) return; addHelp(amt)`,
where `runOnceGuard` returns false when the guard flag is strictly `true`
and otherwise sets it to `true`. -/
def lineAddHelpRun (sceneKey id k : String) (amt : ℤ) (gs : GState) : GState :=
  let flag := lineOnceFlag sceneKey id k "addhelp" ""
  if gs.flags flag = some (.b true) then gs
  else addHelpFn (amt : ℚ) (setAnyFlag gs flag (.b true))

/-- The per-(interaction, choice) helpscore guard key used by
`_applyChoiceEffects`: `` `__choicehs__${scene.key}__${id}__${i}` ``. -/
def choiceHsKey (sceneKey id : String) (i : ℕ) : String :=
  "__choicehs__" ++ sceneKey ++ "__" ++ id ++ "__" ++ toString i

/-- The `choiceNhelpscore` effect of `_applyChoiceEffects`
(EpiloguePartyScene lines 2495–2510): apply the delta once per
(interaction id, choice index), guarded by a truthy flag. -/
def choiceHelpScoreRun (sceneKey id : String) (i : ℕ) (hsRaw : PropVal) (gs : GState) : GState :=
  let k := choiceHsKey sceneKey id i
  if jsTruthy (gs.flags k) then gs
  else
    let gs1 := setAnyFlag gs k (.b true)
    match jsNum (some hsRaw) with
    | some d => if d ≠ 0 then { gs1 with helpScore := gs1.helpScore + d } else gs1
    | none => gs1

/-- A session-start `GameState` slice: no dynamic flags, zero totals. -/
def gs0 : GState := { flags := fun _ => none, helpScore := 0, score := 0 }

-- -------------------------------------------------------------------
-- DialogueBox (systems/DialogueBox.js)
-- -------------------------------------------------------------------

/-- The side-effecting callbacks attached to dialogue steps.  The four
line-meta actions built by `_appendLineMetaActions` are named; any other
closure is `abstractRun` with an identifier. -/
inductive ActionKind where
  | sfx (name : String)
  | giveItem (item : String) (count : ℕ)
  | addHelp (amt : ℤ)
  | addScore (amt : ℤ)
  | abstractRun (id : ℕ)
deriving DecidableEq, Repr

/-- One option of a `choice` step.  `next` is `some n` when the JS `next`
field is a number (the script indices produced by `_runChoiceInteraction`
are array positions, hence naturals); `onSelect` is the identifier of the
attached callback, if any. -/
structure ChoiceOpt where
  text : String
  next : Option ℕ
  onSelect : Option ℕ
deriving DecidableEq, Repr

/-- A dialogue script step (the tagged union run by `DialogueBox`).
`other` models a step value whose `type` is unrecognized (or missing),
which `_runCurrentStep` skips. -/
inductive DStep where
  | say (speaker text : String)
  | pause (ms : ℚ)
  | choice (prompt : String) (options : List ChoiceOpt) (onSelect : Option ℕ)
  | action (run : ActionKind)
  | done
  | other
deriving DecidableEq, Repr

/-- Observable events emitted by the dialogue box: completion-callback
invocations, action-step executions, choice `onSelect` invocations (step
level and option level) and `lockInteract` calls. -/
inductive DEvent where
  | completion (id : ℕ)
  | runAction (a : ActionKind)
  | stepSelect (id : ℕ) (choiceIndex : ℕ)
  | optSelect (id : ℕ) (choiceIndex : ℕ)
  | lockWorld (ms : ℚ)
deriving DecidableEq, Repr

/-- The state of a `DialogueBox` (the fields of systems/DialogueBox.js
that carry the state machine; the Phaser text objects are presentation
and are represented by the text fields they display). -/
structure DBox where
  active : Bool
  script : List DStep
  index : ℕ
  isTyping : Bool
  fullText : String
  visibleText : String
  speakerText : String
  inChoice : Bool
  choiceIndex : ℕ
  choiceOptions : List ChoiceOpt
  pendingOptions : List ChoiceOpt
  choiceStepOnSelect : Option ℕ
  choiceConfirmReadyAt : ℚ
  nextInputReadyAt : ℚ
  onComplete : Option ℕ
  inputCooldownMs : ℚ
  choiceConfirmDelayMs : ℚ
deriving DecidableEq, Repr

/-- `_gateInput(ms)`: push the input-ready time forward. -/
def gateInput (now ms : ℚ) (s : DBox) : DBox :=
  { s with nextInputReadyAt := max s.nextInputReadyAt (now + ms) }

/-- `stop(callOnComplete)`: deactivate, clear typing/choice state and the
displayed texts, lock world interaction, gate input, and when enabled fire
the completion callback exactly once (it is cleared before the call). -/
def stopFn (now : ℚ) (callOnComplete : Bool) (s : DBox) : DBox × List DEvent :=
  let s1 : DBox :=
    { s with active := false, isTyping := false, inChoice := false,
             fullText := "", visibleText := "", speakerText := "",
             choiceOptions := [], choiceStepOnSelect := none }
  let s2 := gateInput now s1.inputCooldownMs s1
  if callOnComplete then
    match s2.onComplete with
    | some cb => ({ s2 with onComplete := none }, [.lockWorld 240, .completion cb])
    | none => (s2, [.lockWorld 240])
  else (s2, [.lockWorld 240])

/-- `_runCurrentStep()`: execute steps starting at the current index;
`say`/`pause`/`choice` wait (typing and timers are driven elsewhere),
`action` runs its callback and advances, `end` and index overflow stop
with completion enabled, anything else is skipped. -/
def runStep (now : ℚ) (s : DBox) : DBox × List DEvent :=
  if s.active = false then (s, [])
  else
    match _hstep : s.script.get? s.index with
    | none => stopFn now true s
    | some (.say sp tx) =>
      ({ gateInput now s.inputCooldownMs s with
          speakerText := sp, fullText := tx, visibleText := "", isTyping := true }, [])
    | some (.pause _) =>
      ({ s with speakerText := "", visibleText := "" }, [])
    | some (.choice pr opts onSel) =>
      ({ gateInput now s.inputCooldownMs s with
          speakerText := "", fullText := pr, visibleText := "", isTyping := true,
          pendingOptions := opts, choiceStepOnSelect := onSel }, [])
    | some (.action a) =>
      let r := runStep now { s with index := s.index + 1 }
      (r.1, .runAction a :: r.2)
    | some .done => stopFn now true s
    | some .other =>
      runStep now { s with index := s.index + 1 }
termination_by s.script.length - s.index
decreasing_by
  all_goals
    have hlt : s.index < s.script.length := List.get?_eq_some.mp _hstep |>.1
    simp
    omega

/-- The tail of `_choice`'s typing timer, run when the prompt finishes
typing: reveal the options, select index 0 and arm the confirm delay. -/
def choiceTypingDone (now : ℚ) (s : DBox) : DBox :=
  { s with isTyping := false, visibleText := s.fullText, inChoice := true,
           choiceOptions := s.pendingOptions, choiceIndex := 0,
           choiceConfirmReadyAt :=
             max (now + s.choiceConfirmDelayMs) (now + s.inputCooldownMs) }

/-- `_onZ()`: the confirm-key handler.  Inactive or input-gated presses do
nothing; a press while typing completes the text instantly; a press in a
choice (after the confirm delay) fires the selection callbacks and jumps
to `next` when numeric, else to the following step; otherwise advance. -/
def onZ (now : ℚ) (s : DBox) : DBox × List DEvent :=
  if s.active = false then (s, [])
  else if ¬ s.nextInputReadyAt ≤ now then (s, [])
  else
    let s1 := gateInput now s.inputCooldownMs s
    if s1.isTyping then
      (gateInput now s1.inputCooldownMs
        { s1 with isTyping := false, visibleText := s1.fullText }, [.lockWorld 240])
    else if s1.inChoice then
      if now < s1.choiceConfirmReadyAt then (s1, [.lockWorld 240])
      else
        match s1.choiceOptions.get? s1.choiceIndex with
        | none => (s1, [.lockWorld 240])
        | some chosen =>
          let es1 := match s1.choiceStepOnSelect with
            | some f => [DEvent.stepSelect f s1.choiceIndex]
            | none => []
          let es2 := match chosen.onSelect with
            | some f => [DEvent.optSelect f s1.choiceIndex]
            | none => []
          let newIndex := match chosen.next with
            | some n => n
            | none => s1.index + 1
          let r := runStep now { s1 with index := newIndex, inChoice := false }
          (r.1, .lockWorld 240 :: (es1 ++ es2 ++ r.2))
    else
      let r := runStep now { s1 with index := s1.index + 1 }
      (r.1, .lockWorld 240 :: r.2)

/-- The field assignments `start` performs after stopping the previous
script: activate, install the script at index 0 and store the callback. -/
def installScript (script : List DStep) (cb : Option ℕ) (s : DBox) : DBox :=
  { s with active := true, script := script, index := 0, onComplete := cb }

/-- `start(script, keys, onComplete)`: stop the previous script without
firing its callback, install the new script and callback, gate input and
run from step 0. -/
def startFn (now : ℚ) (script : List DStep) (cb : Option ℕ) (s : DBox) : DBox × List DEvent :=
  let r1 := stopFn now false s
  let s2 := installScript script cb r1.1
  let s3 := gateInput now s2.inputCooldownMs s2
  let r4 := runStep now s3
  (r4.1, r1.2 ++ r4.2)

/-- External operations on a dialogue box: `start`, `stop` (Esc cancel is
`stop(false)`, the scene API default is `stop(true)`), and a confirm
press. -/
inductive DOp where
  | opStart (script : List DStep) (cb : Option ℕ)
  | opStop (callOnComplete : Bool)
  | opZ
deriving Repr

/-- Apply one timed operation. -/
def applyOp (now : ℚ) (s : DBox) : DOp → DBox × List DEvent
  | .opStart sc cb => startFn now sc cb s
  | .opStop c => stopFn now c s
  | .opZ => onZ now s

/-- Run a timed operation sequence, accumulating events. -/
def runTrace (s : DBox) : List (ℚ × DOp) → DBox × List DEvent
  | [] => (s, [])
  | (t, op) :: rest =>
    let r1 := applyOp t s op
    let r2 := runTrace r1.1 rest
    (r2.1, r1.2 ++ r2.2)

/-- Number of invocations of completion callback `i` in an event list. -/
def compCount (i : ℕ) (es : List DEvent) : ℕ :=
  es.countP (fun e => decide (e = .completion i))

/-- Number of `start` operations in a trace that install callback `i`. -/
def startCount (i : ℕ) : List (ℚ × DOp) → ℕ
  | [] => 0
  | (_, .opStart _ cb) :: rest => (if cb = some i then 1 else 0) + startCount i rest
  | _ :: rest => startCount i rest

/-- 1 when the box currently holds completion callback `i`, else 0. -/
def pot (i : ℕ) (s : DBox) : ℕ := if s.onComplete = some i then 1 else 0

/-- 1 when the operation is a `start` installing callback `i`, else 0. -/
def startContrib (i : ℕ) : DOp → ℕ
  | .opStart _ cb => if cb = some i then 1 else 0
  | _ => 0

-- -------------------------------------------------------------------
-- Global real-time clock (EpiloguePartyScene)
-- -------------------------------------------------------------------

/-- `_tickGlobalRealTime()`: add the frame delta to
`GameState.realTimeMs`, ignoring non-positive (or non-finite) deltas. -/
def tickGlobalRealTime (rt delta : ℚ) : ℚ :=
  if delta ≤ 0 then rt else rt + delta

/-- The effect of one `baseUpdateFrame` on `GameState.realTimeMs`: when
dialogue is active the early-return path is taken and the clock is not
ticked; otherwise `_tickGlobalRealTime` runs. -/
def frameRealTime (dialogueActive : Bool) (rt delta : ℚ) : ℚ :=
  if dialogueActive then rt else tickGlobalRealTime rt delta

-- -------------------------------------------------------------------
-- Deny zones (updateAutoTriggerZones, TiledProps.js)
-- -------------------------------------------------------------------

/-- `Number(props.denycooldownms ?? 600)`. -/
def denyCooldownMs (props : PropTable) : ℚ := jsNumOr (props "denycooldownms") 600

/-- `String(props.denymode ?? "rewind").toLowerCase()`. -/
def denyMode (props : PropTable) : String :=
  jsToLower (jsStr (some ((props "denymode").getD (.s "rewind"))))

/-- `Number(props.denypush ?? 12)`. -/
def denyPushAmt (props : PropTable) : ℚ := jsNumOr (props "denypush") 12

/-- Euclidean distance between two points (JS `Math.hypot`). -/
noncomputable def dist2 (x1 y1 x2 y2 : ℝ) : ℝ :=
  Real.sqrt ((x1 - x2) ^ 2 + (y1 - y2) ^ 2)

/-- The `denyMode === "push"` position correction: project the actor
outward along the vector from zone center `(cx, cy)` through the actor
position `(px, py)`, scaled to length `push` (`Math.hypot(dx, dy) || 1`
guards the degenerate center case). -/
noncomputable def pushResolve (cx cy px py push : ℝ) : ℝ × ℝ :=
  let dx := px - cx
  let dy := py - cy
  let h := Real.sqrt (dx ^ 2 + dy ^ 2)
  let d := if h = 0 then 1 else h
  (px + dx / d * push, py + dy / d * push)

/-- The deny-zone enter-edge handling of `updateAutoTriggerZones`
(TiledProps.js lines 296–337): if the scene-wide cooldown has expired,
produce one feedback event (deny sfx, shake, deny dialogue and the
position correction), re-arm the cooldown to `now + denyCooldownMs`, and
correct the position by the configured mode (`push` projects outward from
the zone center; the default `rewind` snaps back to the last known good
position when one exists).  Within the cooldown window nothing happens.
Returns (feedback emitted, new cooldown deadline, corrected position). -/
noncomputable def denyResolve (props : PropTable) (untilT now : ℚ) (cx cy px py : ℝ)
    (prev : Option (ℝ × ℝ)) : Bool × ℚ × (ℝ × ℝ) :=
  if untilT ≤ now then
    let newPos :=
      if denyMode props = "push" then
        pushResolve cx cy px py ((denyPushAmt props : ℚ) : ℝ)
      else
        match prev with
        | some p => p
        | none => (px, py)
    (true, now + denyCooldownMs props, newPos)
  else (false, untilT, (px, py))

-- -------------------------------------------------------------------
-- NPC waypoint mover (EpiloguePartyScene.updateMovingNpcs)
-- -------------------------------------------------------------------

/-- The per-NPC movement state: sprite position and velocity, the entry of
`_movingNpcById` (`points`/`idx`/`speed`/`arriveDist`, with `moving`
modelling membership in the map). -/
structure NpcState where
  x : ℝ
  y : ℝ
  vx : ℝ
  vy : ℝ
  pts : List (ℝ × ℝ)
  idx : ℕ
  speed : ℝ
  arriveDist : ℝ
  moving : Bool

/-- `Math.max(6, Number(st.arriveDist) || 2)`. -/
noncomputable def effArrive (st : NpcState) : ℝ := max 6 (if st.arriveDist = 0 then 2 else st.arriveDist)

/-- `Math.max(1, Number(st.speed) || 40)`. -/
noncomputable def effSpeed (st : NpcState) : ℝ := max 1 (if st.speed = 0 then 40 else st.speed)

/-- One `updateMovingNpcs` pass for a single registered NPC: nothing when
not in the map; exhausted waypoint lists stop and clear; within arrival
tolerance of the current target the sprite snaps exactly to it
(`body.reset` also zeroes the velocity), the index advances, and if that
was the last waypoint the map entry is removed in the same pass; otherwise
the velocity is set toward the target at the effective speed. -/
noncomputable def npcTick (st : NpcState) : NpcState :=
  if st.moving = false then st
  else if st.pts = [] ∨ st.pts.length ≤ st.idx then
    { st with vx := 0, vy := 0, moving := false }
  else
    match st.pts.get? st.idx with
    | none => { st with vx := 0, vy := 0, moving := false }
    | some (tx, ty) =>
      let dx := tx - st.x
      let dy := ty - st.y
      let dist := Real.sqrt (dx ^ 2 + dy ^ 2)
      let arrive := effArrive st
      if dist ≤ arrive ∨ (|dx| ≤ arrive ∧ |dy| ≤ arrive) then
        let st1 := { st with idx := st.idx + 1, x := tx, y := ty, vx := 0, vy := 0 }
        if st.pts.length ≤ st.idx + 1 then { st1 with moving := false } else st1
      else
        { st with vx := dx / dist * effSpeed st, vy := dy / dist * effSpeed st }

/-- The physics integration between two ticks: the body moves at the
velocity the tick set, for the frame duration `dt`. -/
noncomputable def physicsStep (dt : ℝ) (st : NpcState) : NpcState :=
  { st with x := st.x + st.vx * dt, y := st.y + st.vy * dt }

/-- One frame: the `updateMovingNpcs` pass followed by physics motion. -/
noncomputable def npcFrame (dt : ℝ) (st : NpcState) : NpcState :=
  physicsStep dt (npcTick st)

/-- The arrival test of `updateMovingNpcs` for target `(tx, ty)`:
`dist <= arrive || (|dx| <= arrive && |dy| <= arrive)`. -/
def arrivalCond (st : NpcState) (tx ty : ℝ) : Prop :=
  Real.sqrt ((tx - st.x) ^ 2 + (ty - st.y) ^ 2) ≤ effArrive st
  ∨ (|tx - st.x| ≤ effArrive st ∧ |ty - st.y| ≤ effArrive st)

-- -------------------------------------------------------------------
-- Dialogue-script building and progressive post-help dialogue
-- (EpiloguePartyScene._appendLineMetaActions,
--  _buildDialogueScriptFromPrefix and the progressive block of
--  _runTiledInteraction)
-- -------------------------------------------------------------------

/-- `_appendLineMetaActions(interactionId, props, key, steps)`: the action
steps appended for one dialogue line — an sfx action when `<key>sfx` is a
nonempty string, a give-item action when `<key>giveitem` is nonempty, an
add-help action when `<key>addhelp` has a nonzero integer floor, and an
add-score action likewise; nothing when the trimmed id or key is empty. -/
def lineMetaSteps (props : PropTable) (id k : String) : List DStep :=
  if jsTrim id = "" ∨ jsTrim k = "" then []
  else
    let sfxName := jsTrim (jsStr (props (k ++ "sfx")))
    let giveItem := jsTrim (jsStr (props (k ++ "giveitem")))
    let giveCount : ℕ :=
      match jsNum (props (k ++ "givecount")) with
      | some q => if 0 < q then (⌊q⌋).toNat else 1
      | none => 1
    let addHelpAmt : ℤ :=
      match jsNum (props (k ++ "addhelp")) with
      | some q => ⌊q⌋
      | none => 0
    let addScoreAmt : ℤ :=
      match jsNum (props (k ++ "addscore")) with
      | some q => ⌊q⌋
      | none => 0
    (if sfxName ≠ "" then [DStep.action (.sfx sfxName)] else [])
      ++ (if giveItem ≠ "" then [DStep.action (.giveItem giveItem giveCount)] else [])
      ++ (if addHelpAmt ≠ 0 then [DStep.action (.addHelp addHelpAmt)] else [])
      ++ (if addScoreAmt ≠ 0 then [DStep.action (.addScore addScoreAmt)] else [])

/-- Strip a leading run `q` from `l`; `none` when `l` does not start
with `q`. -/
def dropStart : List Char → List Char → Option (List Char)
  | l, [] => some l
  | [], _ :: _ => none
  | a :: l, b :: q => if a = b then dropStart l q else none

/-- `_lineIndexFromKey(prefix, key)`: 1 for the unnumbered base key,
otherwise the positive number carried by `key = prefix ++ digits`
(the regex `^prefix(\d+)$`; the dialogue key bases contain no regex
metacharacters), defaulting to 1. -/
def lineIndexFromKey (p k : String) : ℕ :=
  if p = "" ∨ k = "" then 1
  else if k = p then 1
  else
    match dropStart k.data p.data with
    | some rest =>
      if rest ≠ [] ∧ rest.all Char.isDigit then
        if 0 < digitsVal rest then digitsVal rest else 1
      else 1
    | none => 1

/-- `_resolveLineSpeaker(props, baseSpeaker, prefix, key)`: the
line-specific speaker, else the numbered speaker, else the group speaker,
else the interaction default. -/
def resolveLineSpeaker (props : PropTable) (baseSpeaker p k : String) : String :=
  let n := lineIndexFromKey p k
  let direct := jsTrim (jsStr (props (k ++ "speaker")))
  if direct ≠ "" then direct
  else
    let numbered := jsTrim (jsStr (props (p ++ toString n ++ "speaker")))
    if numbered ≠ "" then numbered
    else
      let grp := jsTrim (jsStr (props (p ++ "speaker")))
      if grp ≠ "" then grp else jsTrim baseSpeaker

/-- The loop body of `_buildDialogueScriptFromPrefix` for one key: skip
empty lines, otherwise the line's meta actions followed by its say step. -/
def perKeySteps (props : PropTable) (id baseSpeaker p k : String) : List DStep :=
  let text := jsTrim (jsStr (props k))
  if text = "" then []
  else lineMetaSteps props id k
    ++ [DStep.say (resolveLineSpeaker props baseSpeaker p k) text]

/-- `_buildDialogueScriptFromPrefix(props, baseSpeaker, prefix, id)`. -/
def buildDialogueScript (props : PropTable) (baseSpeaker pfx id : String) : List DStep :=
  let p := jsTrim pfx
  if p = "" then []
  else
    let keys := getNumberedKeys props p
    if keys = [] then perKeySteps props id baseSpeaker p p
    else (keys.map (perKeySteps props id baseSpeaker p)).flatten

/-- `Math.trunc` on a rational. -/
def jsTrunc (q : ℚ) : ℤ := if 0 ≤ q then ⌊q⌋ else ⌈q⌉

/-- `clampInt(n, min, max)` (part_003): non-numeric input counts as 0,
then truncate and clamp. -/
def clampIntQ (v : Option ℚ) (lo hi : ℤ) : ℤ :=
  let x : ℤ := match v with | some q => jsTrunc q | none => 0
  max lo (min hi x)

/-- `_truthy(v)` (part_003): strictly `true`, the string `"true"` (any
case), the number 1, or the string `"1"`. -/
def followTruthy (v : Option PropVal) : Bool :=
  v = some (.b true) || jsToLower (jsStr v) = "true" || v = some (.n 1) || v = some (.s "1")

/-- `_parseSpeakerInline(line, defaultSpeaker)` (part_003): split a
follower line at its first `":"` (a leading or absent colon keeps the
default speaker). -/
def parseSpeakerInline (line defaultSpeaker : String) : String × String :=
  let s := jsTrim line
  if s = "" then (defaultSpeaker, "")
  else
    match s.data.findIdx? (fun c => c = ':') with
    | none => (defaultSpeaker, s)
    | some i =>
      if i = 0 then (defaultSpeaker, s)
      else (jsTrim ⟨s.data.take i⟩, jsTrim ⟨s.data.drop (i + 1)⟩)

/-- `_selectFollowerBaseKey(gs, props, basePrefix)` (part_003): with no
follower present no key is selected; otherwise the both-followers
variant, then the saga / aloise variants, then the generic base key —
each only when it has collected lines; `""` models a null selection. -/
def selectFollowerBaseKey (flags : String → Option PropVal) (props : PropTable)
    (basePrefix0 : String) : String :=
  let aloise := followTruthy (flags "aloiseFollowing") || followTruthy (flags "aloiseJoined")
  let saga := followTruthy (flags "sagaJoined") || followTruthy (flags "sagaFollowing")
  let base0 := jsToLower (jsTrim basePrefix0)
  let base := if base0 = "" then "followdialogue" else base0
  if aloise || saga then
    if (aloise && saga) = true ∧ getNumberedPropLines props ("bothfollowers" ++ base) ≠ [] then
      "bothfollowers" ++ base
    else if saga = true ∧ getNumberedPropLines props ("sagafollower" ++ base) ≠ [] then
      "sagafollower" ++ base
    else if aloise = true ∧ getNumberedPropLines props ("aloisefollower" ++ base) ≠ [] then
      "aloisefollower" ++ base
    else if getNumberedPropLines props base ≠ [] then base
    else ""
  else ""

/-- One key test of `hasFollowerDialogueProps` (part_003). -/
def keyMatchesFollower (k : String) : Bool :=
  let key := jsToLower k
  key = "followdialogue" || (dropStart key.data "followdialogue".data).isSome
    || (dropStart key.data "aloisefollowerfollowdialogue".data).isSome
    || (dropStart key.data "sagafollowerfollowdialogue".data).isSome
    || (dropStart key.data "bothfollowersfollowdialogue".data).isSome
    || key = "followpausems"

/-- `hasFollowerDialogueProps(props)` (part_003), over the object's key
list (`Object.keys(props)`, which the function iterates). -/
def hasFollowerDialogueProps (propKeys : List String) : Bool :=
  propKeys.any keyMatchesFollower

/-- `clampInt(props.followpausems ?? 250, 0, 5000)`. -/
def followPauseMs (props : PropTable) : ℤ :=
  clampIntQ (jsNum (some ((props "followpausems").getD (.n 250)))) 0 5000

/-- `appendFollowerDialogue(scene, props, script, {basePrefix:
"followdialogue"})` in its default replace mode (part_003): when a
follower base key is selected and has lines, the script is discarded and
replaced by an optional pause step followed by the parsed follower say
lines (empty-text lines skipped); otherwise the script is untouched. -/
def appendFollowerDialogueReplace (props : PropTable)
    (flags : String → Option PropVal) (script : List DStep) : List DStep :=
  let baseKey := selectFollowerBaseKey flags props "followdialogue"
  if baseKey = "" then script
  else
    let lines := getNumberedPropLines props baseKey
    if lines = [] then script
    else
      let pauseMs := followPauseMs props
      let defaultSpeaker := jsTrim (jsStr (props "speaker"))
      (if 0 < pauseMs then [DStep.pause (pauseMs : ℚ)] else [])
        ++ lines.filterMap (fun ln =>
            let p := parseSpeakerInline ln defaultSpeaker
            if p.2 = "" then none else some (DStep.say p.1 p.2))

/-- The progressive post-dialogue visit-count key:
`` `__postdlg_count|${scene.key}|${id}|${prefix}` ``. -/
def postdlgCountKey (sceneKey id p : String) : String :=
  "__postdlg_count|" ++ sceneKey ++ "|" ++ id ++ "|" ++ p

/-- One already-helped, non-sequence-mode visit (the progressive block of
`_runTiledInteraction`, lines 2164–2183): build the script for the
selected post-dialogue group; when nonempty, bump the per-(scene, id,
group) visit counter and reduce the script to the single step
`script[min(n, script.length) - 1]`; then, when the script is nonempty or
follower-dialogue props exist, run `appendFollowerDialogue` (default
replace mode, base prefix `"followdialogue"`, against the just-updated
flags) and push the `end` step.  `propKeys` is `Object.keys(props)`.
Returns the updated flag map and the started steps. -/
def progressiveVisit (props : PropTable) (propKeys : List String)
    (sceneKey id baseSpeaker p : String) (flags : String → Option PropVal) :
    (String → Option PropVal) × List DStep :=
  let script := buildDialogueScript props baseSpeaker p id
  if script = [] then
    if hasFollowerDialogueProps propKeys then
      (flags, appendFollowerDialogueReplace props flags [] ++ [DStep.done])
    else (flags, [])
  else
    let ck := postdlgCountKey sceneKey id p
    let n : ℚ := jsNumOr (flags ck) 0 + 1
    let flags' := fun k' => if k' = ck then some (.n n) else flags k'
    let idx : ℕ := (⌊min n (script.length : ℚ) - 1⌋).toNat
    (flags', appendFollowerDialogueReplace props flags' (script.get? idx).toList ++ [DStep.done])

/-- `K` successive visits; `.2` is what the `K`-th visit starts. -/
def iterateVisits (props : PropTable) (propKeys : List String)
    (sceneKey id baseSpeaker p : String) (flags : String → Option PropVal) :
    ℕ → ((String → Option PropVal) × List DStep)
  | 0 => (flags, [])
  | n + 1 =>
    progressiveVisit props propKeys sceneKey id baseSpeaker p
      (iterateVisits props propKeys sceneKey id baseSpeaker p flags n).1

-- ===================================================================
-- Theorems
-- ===================================================================

lemma takeWhile_append_stop (c : Char) :
    ∀ (x r : List Char), (∀ a ∈ x, a ≠ c) →
      (x ++ c :: r).takeWhile (fun a => a ≠ c) = x := by
  intro x
  induction x with
  | nil => intro r _; simp [List.takeWhile]
  | cons a x ih =>
    intro r hx
    have ha : a ≠ c := hx a (by simp)
    simp only [List.cons_append, List.takeWhile_cons, decide_eq_true_eq]
    rw [if_pos ha, ih r (fun b hb => hx b (by simp [hb]))]

lemma takeWhile_of_charFree (c : Char) :
    ∀ (x : List Char), (∀ a ∈ x, a ≠ c) → x.takeWhile (fun a => a ≠ c) = x := by
  intro x
  induction x with
  | nil => simp
  | cons a x ih =>
    intro hx
    have ha : a ≠ c := hx a (by simp)
    simp only [List.takeWhile_cons, decide_eq_true_eq]
    rw [if_pos ha, ih (fun b hb => hx b (by simp [hb]))]

lemma decodeParts_joinSepL (c : Char) (m : ℕ) :
    ∀ xs : List (List Char), (∀ x ∈ xs, x ≠ [] ∧ ∀ a ∈ x, a ≠ c) →
      decodeParts c m (joinSepL (List.replicate (m + 1) c) xs) = xs := by
  intro xs
  induction xs with
  | nil => intro _; simp [joinSepL, decodeParts]
  | cons x xs ih =>
    intro hxs
    obtain ⟨hx, hxc⟩ := hxs x (by simp)
    cases xs with
    | nil =>
      rw [joinSepL, decodeParts]
      rw [dif_neg hx]
      rw [takeWhile_of_charFree c x hxc]
      have hrest : decodeRest c m x = [] := by
        unfold decodeRest
        rw [takeWhile_of_charFree c x hxc]
        exact List.drop_eq_nil_of_le (by omega)
      rw [hrest]
      simp [decodeParts]
    | cons y ys =>
      rw [joinSepL]
      have hrep : List.replicate (m + 1) c = c :: List.replicate m c := by
        simp [List.replicate]
      have hne : x ++ List.replicate (m + 1) c ++ joinSepL (List.replicate (m + 1) c) (y :: ys)
          ≠ [] := by
        simp [hrep]
      rw [decodeParts, dif_neg hne]
      have htw : (x ++ List.replicate (m + 1) c ++ joinSepL (List.replicate (m + 1) c) (y :: ys)).takeWhile
          (fun a => a ≠ c) = x := by
        rw [hrep, List.append_assoc, List.cons_append]
        exact takeWhile_append_stop c x _ hxc
      have hdr : decodeRest c m (x ++ List.replicate (m + 1) c ++ joinSepL (List.replicate (m + 1) c) (y :: ys))
          = joinSepL (List.replicate (m + 1) c) (y :: ys) := by
        unfold decodeRest
        rw [htw, List.append_assoc]
        have hlen : x.length + (m + 1) = (x ++ List.replicate (m + 1) c).length + 0 := by
          simp
        rw [hlen, ← List.append_assoc, List.drop_append 0, List.drop_zero]
      rw [htw, hdr, ih (fun z hz => hxs z (by simp [hz]))]

lemma joinSep_data (sep : String) :
    ∀ parts : List String, (joinSep sep parts).data = joinSepL sep.data (parts.map String.data) := by
  intro parts
  induction parts with
  | nil => rfl
  | cons x xs ih =>
    cases xs with
    | nil => rfl
    | cons y ys =>
      show (x ++ sep ++ joinSep sep (y :: ys)).data = _
      rw [String.data_append, String.data_append, ih]
      rfl

lemma string_data_injective : Function.Injective String.data := by
  intro a b h
  cases a; cases b
  exact congrArg String.mk h

lemma string_data_ne_nil (s : String) (h : s ≠ "") : s.data ≠ [] := by
  intro hd
  exact h (string_data_injective (show s.data = ("" : String).data from hd))

/-- Decoding a scene flag key recovers the category and the parts. -/
lemma flagKeyScene_decode (cat : String) (parts : List String)
    (hcat : cat ≠ "" ∧ charFree '_' cat)
    (hparts : ∀ x ∈ parts, x ≠ "" ∧ charFree '_' x) :
    decodeParts '_' 1 (flagKeyScene cat parts).data
      = cat.data :: parts.map String.data := by
  have hdata : (flagKeyScene cat parts).data
      = cat.data ++ '_' :: '_' :: joinSepL ['_', '_'] (parts.map String.data) := by
    unfold flagKeyScene
    rw [String.data_append, String.data_append, joinSep_data]
    have h2 : ("__" : String).data = ['_', '_'] := rfl
    rw [h2, List.append_assoc]
    rfl
  have hne : (flagKeyScene cat parts).data ≠ [] := by
    rw [hdata]
    intro h
    exact string_data_ne_nil cat hcat.1 (List.append_eq_nil.mp h).1
  have htw : (flagKeyScene cat parts).data.takeWhile (fun a => a ≠ '_') = cat.data := by
    rw [hdata]
    exact takeWhile_append_stop '_' cat.data _ hcat.2
  have hdr : decodeRest '_' 1 (flagKeyScene cat parts).data
      = joinSepL ['_', '_'] (parts.map String.data) := by
    unfold decodeRest
    rw [htw, hdata]
    have : cat.data ++ '_' :: '_' :: joinSepL ['_', '_'] (parts.map String.data)
        = (cat.data ++ ['_', '_']) ++ joinSepL ['_', '_'] (parts.map String.data) := by
      simp
    rw [this]
    have hlen : cat.data.length + (1 + 1) = (cat.data ++ ['_', '_']).length + 0 := by
      simp
    rw [hlen, List.drop_append 0, List.drop_zero]
  rw [decodeParts, dif_neg hne, htw, hdr]
  have : joinSepL ['_', '_'] (parts.map String.data)
      = joinSepL (List.replicate 2 '_') (parts.map String.data) := rfl
  rw [this, decodeParts_joinSepL '_' 1]
  intro x hx
  obtain ⟨y, hy, rfl⟩ := List.mem_map.mp hx
  obtain ⟨h1, h2⟩ := hparts y hy
  exact ⟨string_data_ne_nil y h1, h2⟩

/-- Decoding a part_003 pipe flag key recovers the parts, when they are
all nonempty (so the `filter(Boolean)` keeps them). -/
lemma flagKeyPipe_decode (parts : List String)
    (hparts : ∀ x ∈ parts, x ≠ "" ∧ charFree '|' x) :
    decodeParts '|' 0 (flagKeyPipe parts).data = parts.map String.data := by
  have hfilter : parts.filter (fun s => s ≠ "") = parts := by
    rw [List.filter_eq_self]
    intro a ha
    simpa using (hparts a ha).1
  unfold flagKeyPipe
  rw [hfilter, joinSep_data]
  have : ("|" : String).data = List.replicate 1 '|' := rfl
  rw [this, decodeParts_joinSepL '|' 0]
  intro x hx
  obtain ⟨y, hy, rfl⟩ := List.mem_map.mp hx
  obtain ⟨h1, h2⟩ := hparts y hy
  exact ⟨string_data_ne_nil y h1, h2⟩

-- DialogueBox step-execution characterization lemmas

lemma runStep_inactive (now : ℚ) (s : DBox) (h : s.active = false) :
    runStep now s = (s, []) := by
  rw [runStep, if_pos h]

lemma runStep_overrun (now : ℚ) (s : DBox) (hact : ¬ s.active = false)
    (h : s.script.get? s.index = none) :
    runStep now s = stopFn now true s := by
  rw [runStep, if_neg hact]
  split
  · rfl
  all_goals (rename_i heq; rw [h] at heq <;> exact Option.noConfusion heq)

lemma runStep_say_eq (now : ℚ) (s : DBox) (hact : ¬ s.active = false) (sp tx : String)
    (h : s.script.get? s.index = some (.say sp tx)) :
    runStep now s
      = ({ gateInput now s.inputCooldownMs s with
            speakerText := sp, fullText := tx, visibleText := "", isTyping := true }, []) := by
  rw [runStep, if_neg hact]
  split <;> simp_all

lemma runStep_pause_eq (now : ℚ) (s : DBox) (hact : ¬ s.active = false) (ms : ℚ)
    (h : s.script.get? s.index = some (.pause ms)) :
    runStep now s = ({ s with speakerText := "", visibleText := "" }, []) := by
  rw [runStep, if_neg hact]
  split <;> simp_all

lemma runStep_choice_eq (now : ℚ) (s : DBox) (hact : ¬ s.active = false)
    (pr : String) (opts : List ChoiceOpt) (onSel : Option ℕ)
    (h : s.script.get? s.index = some (.choice pr opts onSel)) :
    runStep now s
      = ({ gateInput now s.inputCooldownMs s with
            speakerText := "", fullText := pr, visibleText := "", isTyping := true,
            pendingOptions := opts, choiceStepOnSelect := onSel }, []) := by
  rw [runStep, if_neg hact]
  split <;> simp_all

lemma runStep_action_eq (now : ℚ) (s : DBox) (hact : ¬ s.active = false) (a : ActionKind)
    (h : s.script.get? s.index = some (.action a)) :
    runStep now s
      = ((runStep now { s with index := s.index + 1 }).1,
         .runAction a :: (runStep now { s with index := s.index + 1 }).2) := by
  rw [runStep, if_neg hact]
  split <;> simp_all

lemma runStep_done_eq (now : ℚ) (s : DBox) (hact : ¬ s.active = false)
    (h : s.script.get? s.index = some .done) :
    runStep now s = stopFn now true s := by
  rw [runStep, if_neg hact]
  split <;> simp_all

lemma runStep_other_eq (now : ℚ) (s : DBox) (hact : ¬ s.active = false)
    (h : s.script.get? s.index = some .other) :
    runStep now s = runStep now { s with index := s.index + 1 } := by
  rw [runStep, if_neg hact]
  split <;> simp_all

lemma onZ_confirm_eq (now : ℚ) (s : DBox) (opt : ChoiceOpt)
    (hact : s.active = true)
    (hready : s.nextInputReadyAt ≤ now)
    (htyping : s.isTyping = false)
    (hchoice : s.inChoice = true)
    (hconfirm : s.choiceConfirmReadyAt ≤ now)
    (hopt : s.choiceOptions.get? s.choiceIndex = some opt) :
    (onZ now s).1 =
      (runStep now
        { gateInput now s.inputCooldownMs s with
            index := (match opt.next with | some n => n | none => s.index + 1),
            inChoice := false }).1 := by
  rw [onZ]
  rw [if_neg (by simp [hact])]
  rw [if_neg (not_not_intro hready)]
  simp only [gateInput, htyping, Bool.false_eq_true, if_false, hchoice, if_true,
    not_lt.mpr hconfirm, hopt]

/-- C4: in the dialogue runner's choice state, confirming an option whose
`next` field is the number `N` sets the script index to exactly `N` and
resumes execution at script step `N` (here: step `N` is a say step and the
runner starts typing exactly its text), regardless of the index the choice
step had; confirming an option without a numeric `next` resumes at exactly
the following step. -/
theorem C4_choice_next_jump_is_absolute (now : ℚ) (s : DBox) (opt : ChoiceOpt)
    (hact : s.active = true) (hready : s.nextInputReadyAt ≤ now)
    (htyping : s.isTyping = false) (hchoice : s.inChoice = true)
    (hconfirm : s.choiceConfirmReadyAt ≤ now)
    (hopt : s.choiceOptions.get? s.choiceIndex = some opt) :
    (∀ n sp tx, opt.next = some n → s.script.get? n = some (.say sp tx) →
      (onZ now s).1.index = n ∧ (onZ now s).1.isTyping = true
        ∧ (onZ now s).1.fullText = tx)
  ∧ (∀ sp tx, opt.next = none → s.script.get? (s.index + 1) = some (.say sp tx) →
      (onZ now s).1.index = s.index + 1 ∧ (onZ now s).1.isTyping = true
        ∧ (onZ now s).1.fullText = tx) := by
  constructor
  · intro n sp tx hnext hsay
    rw [onZ_confirm_eq now s opt hact hready htyping hchoice hconfirm hopt, hnext]
    rw [runStep_say_eq now _ (by simp [gateInput, hact]) sp tx
      (by simpa [gateInput] using hsay)]
    simp [gateInput]
  · intro sp tx hnext hsay
    rw [onZ_confirm_eq now s opt hact hready htyping hchoice hconfirm hopt, hnext]
    rw [runStep_say_eq now _ (by simp [gateInput, hact]) sp tx
      (by simpa [gateInput] using hsay)]
    simp [gateInput]

/-- C4 witness: a concrete script `[choice, say, say, say]` whose single
option jumps to index 3; confirming from the choice at index 0 resumes at
step 3 and types its text. -/
theorem C4_choice_next_jump_witness :
    let opt : ChoiceOpt := { text := "go", next := some 3, onSelect := none }
    let s : DBox :=
      { active := true,
        script := [.choice "pick" [opt] none, .say "a" "first", .say "b" "second",
                   .say "c" "third"],
        index := 0, isTyping := false, fullText := "pick", visibleText := "pick",
        speakerText := "", inChoice := true, choiceIndex := 0, choiceOptions := [opt],
        pendingOptions := [opt], choiceStepOnSelect := none,
        choiceConfirmReadyAt := 50, nextInputReadyAt := 40, onComplete := none,
        inputCooldownMs := 500, choiceConfirmDelayMs := 250 }
    (onZ 100 s).1.index = 3 ∧ (onZ 100 s).1.isTyping = true
      ∧ (onZ 100 s).1.fullText = "third" := by
  intro opt s
  exact (C4_choice_next_jump_is_absolute 100 s opt rfl (by norm_num) rfl rfl
    (by norm_num) rfl).1 3 "c" "third" rfl rfl

-- Completion-callback accounting for C10

lemma compCount_append (i : ℕ) (a b : List DEvent) :
    compCount i (a ++ b) = compCount i a + compCount i b := by
  simp [compCount, List.countP_append]

lemma stopFn_comp (now : ℚ) (c : Bool) (s : DBox) (i : ℕ) :
    compCount i (stopFn now c s).2 + pot i (stopFn now c s).1 = pot i s := by
  cases c with
  | false => simp [stopFn, gateInput, pot, compCount]
  | true =>
    cases h : s.onComplete with
    | none => simp [stopFn, gateInput, pot, compCount, h]
    | some cb =>
      by_cases hcb : cb = i
      · simp [stopFn, gateInput, pot, compCount, h, hcb]
      · simp [stopFn, gateInput, pot, compCount, h, hcb]

lemma runStep_comp (now : ℚ) (s : DBox) (i : ℕ) :
    compCount i (runStep now s).2 + pot i (runStep now s).1 = pot i s := by
  induction s using runStep.induct now with
  | case1 x h => rw [runStep_inactive now x h]; simp [compCount]
  | case2 x h hg => rw [runStep_overrun now x h hg]; exact stopFn_comp now true x i
  | case3 x h sp tx hg =>
    rw [runStep_say_eq now x h sp tx hg]; simp [compCount, pot, gateInput]
  | case4 x h ms hg => rw [runStep_pause_eq now x h ms hg]; simp [compCount, pot]
  | case5 x h pr opts onSel hg =>
    rw [runStep_choice_eq now x h pr opts onSel hg]; simp [compCount, pot, gateInput]
  | case6 x h a hg ih =>
    rw [runStep_action_eq now x h a hg]
    have hpot : pot i { x with index := x.index + 1 } = pot i x := by simp [pot]
    simp only [compCount, List.countP_cons] at ih ⊢
    have hdec : (decide (DEvent.runAction a = DEvent.completion i)) = false := by simp
    simp only [hdec, Bool.false_eq_true, if_false]
    omega
  | case7 x h hg => rw [runStep_done_eq now x h hg]; exact stopFn_comp now true x i
  | case8 x h hg ih => rw [runStep_other_eq now x h hg]; exact ih

lemma onZ_comp (now : ℚ) (s : DBox) (i : ℕ) :
    compCount i (onZ now s).2 + pot i (onZ now s).1 = pot i s := by
  rw [onZ]
  by_cases h1 : s.active = false
  · rw [if_pos h1]; simp [compCount]
  rw [if_neg h1]
  by_cases h2 : ¬ s.nextInputReadyAt ≤ now
  · rw [if_pos h2]; simp [compCount]
  rw [if_neg h2]
  simp only [gateInput]
  by_cases hT : s.isTyping = true
  · rw [if_pos hT]; simp [compCount, pot]
  rw [if_neg hT]
  by_cases hC : s.inChoice = true
  · rw [if_pos hC]
    by_cases hR : now < s.choiceConfirmReadyAt
    · rw [if_pos hR]; simp [compCount, pot]
    rw [if_neg hR]
    cases hopt : s.choiceOptions.get? s.choiceIndex with
    | none => simp only [hopt]; simp [compCount, pot]
    | some chosen =>
      simp only [hopt]
      have hrs := runStep_comp now
        { s with
            nextInputReadyAt := max s.nextInputReadyAt (now + s.inputCooldownMs),
            index := (match chosen.next with | some n => n | none => s.index + 1),
            inChoice := false } i
      have hpot : pot i { s with
            nextInputReadyAt := max s.nextInputReadyAt (now + s.inputCooldownMs),
            index := (match chosen.next with | some n => n | none => s.index + 1),
            inChoice := false } = pot i s := by simp [pot]
      rw [hpot] at hrs
      have hsel : compCount i (match s.choiceStepOnSelect with
          | some f => [DEvent.stepSelect f s.choiceIndex]
          | none => []) = 0 := by
        cases s.choiceStepOnSelect <;> simp [compCount]
      have hos : compCount i (match chosen.onSelect with
          | some f => [DEvent.optSelect f s.choiceIndex]
          | none => []) = 0 := by
        cases chosen.onSelect <;> simp [compCount]
      have hd1 : (decide ((DEvent.lockWorld 240) = DEvent.completion i)) = false := by simp
      simp only [compCount, List.countP_cons, List.countP_append] at hrs hsel hos ⊢
      simp only [hd1, Bool.false_eq_true, if_false]
      omega
  · rw [if_neg hC]
    have hrs := runStep_comp now
      { s with
          nextInputReadyAt := max s.nextInputReadyAt (now + s.inputCooldownMs),
          index := s.index + 1 } i
    have hpot : pot i { s with
          nextInputReadyAt := max s.nextInputReadyAt (now + s.inputCooldownMs),
          index := s.index + 1 } = pot i s := by simp [pot]
    rw [hpot] at hrs
    have hd1 : (decide ((DEvent.lockWorld 240) = DEvent.completion i)) = false := by simp
    simp only [compCount, List.countP_cons] at hrs ⊢
    simp only [hd1, Bool.false_eq_true, if_false]
    omega

lemma startFn_comp (now : ℚ) (sc : List DStep) (cb : Option ℕ) (s : DBox) (i : ℕ) :
    compCount i (startFn now sc cb s).2 + pot i (startFn now sc cb s).1
      = (if cb = some i then 1 else 0) := by
  unfold startFn
  simp only []
  rw [compCount_append]
  have h1 : compCount i (stopFn now false s).2 = 0 := by simp [stopFn, compCount]
  rw [h1]
  have hrs := runStep_comp now
    (gateInput now (installScript sc cb (stopFn now false s).1).inputCooldownMs
      (installScript sc cb (stopFn now false s).1)) i
  have hpot : pot i (gateInput now (installScript sc cb (stopFn now false s).1).inputCooldownMs
      (installScript sc cb (stopFn now false s).1))
      = (if cb = some i then 1 else 0) := by simp [pot, gateInput, installScript]
  rw [hpot] at hrs
  omega

lemma applyOp_comp (t : ℚ) (s : DBox) (op : DOp) (i : ℕ) :
    compCount i (applyOp t s op).2 + pot i (applyOp t s op).1
      ≤ pot i s + startContrib i op := by
  cases op with
  | opStart sc cb =>
    have h := startFn_comp t sc cb s i
    simp only [applyOp, startContrib]
    omega
  | opStop c =>
    have h := stopFn_comp t c s i
    simp only [applyOp, startContrib]
    omega
  | opZ =>
    have h := onZ_comp t s i
    simp only [applyOp, startContrib]
    omega

lemma runTrace_comp (i : ℕ) :
    ∀ (ops : List (ℚ × DOp)) (s : DBox),
      compCount i (runTrace s ops).2 + pot i (runTrace s ops).1
        ≤ pot i s + startCount i ops := by
  intro ops
  induction ops with
  | nil => intro s; simp [runTrace, compCount, startCount]
  | cons hd rest ih =>
    intro s
    obtain ⟨t, op⟩ := hd
    simp only [runTrace]
    rw [compCount_append]
    have h1 := applyOp_comp t s op i
    have h2 := ih (applyOp t s op).1
    have h3 : startCount i ((t, op) :: rest)
        = startContrib i op + startCount i rest := by
      cases op <;> simp [startCount, startContrib]
    omega

/-- C10: `DialogueBox.start` stops the previous script with its completion
callback suppressed, so the previous script's callback is never invoked by
a `start` (first conjunct: a `start` installing a different callback emits
no invocation of the previous one); and along any sequence of `start` /
`stop` / confirm operations in which a given callback is installed by at
most one `start`, that callback is invoked at most once (it is cleared
before being called, and only a stop with completion enabled calls it). -/
theorem C10_completion_callback_discipline :
    (∀ (now : ℚ) (sc : List DStep) (cb : Option ℕ) (s : DBox) (i : ℕ),
      s.onComplete = some i → cb ≠ some i →
      compCount i (startFn now sc cb s).2 = 0)
  ∧ (∀ (i : ℕ) (ops : List (ℚ × DOp)) (s : DBox),
      s.onComplete = none → startCount i ops ≤ 1 →
      compCount i (runTrace s ops).2 ≤ 1) := by
  constructor
  · intro now sc cb s i _hprev hne
    have h := startFn_comp now sc cb s i
    rw [if_neg hne] at h
    omega
  · intro i ops s hnone hle
    have h := runTrace_comp i ops s
    have hpot : pot i s = 0 := by simp [pot, hnone]
    omega

/-- C10 witness: a box mid-script with pending callback 5; starting a new
script that completes immediately with callback 7 never invokes
callback 5. -/
theorem C10_completion_callback_witness :
    let s : DBox :=
      { active := true, script := [.say "a" "hello", .done], index := 0,
        isTyping := true, fullText := "hello", visibleText := "h",
        speakerText := "a", inChoice := false, choiceIndex := 0,
        choiceOptions := [], pendingOptions := [], choiceStepOnSelect := none,
        choiceConfirmReadyAt := 0, nextInputReadyAt := 0, onComplete := some 5,
        inputCooldownMs := 500, choiceConfirmDelayMs := 250 }
    compCount 5 (startFn 0 [DStep.done] (some 7) s).2 = 0 := by
  intro s
  exact C10_completion_callback_discipline.1 0 [DStep.done] (some 7) s 5 rfl (by decide)

/-- C1: the FlagKey-guarded "once" effects are idempotent: a second (or
any later) invocation of the line-level `addhelp` action or of the
choice-level `helpscore` effect for the same interaction id leaves
`GameState` exactly as the first invocation left it; in particular,
starting from help-score 0, applying a `+10 once` help effect twice for
the same interaction id yields help-score 10, not 20 — via both
mechanisms. -/
theorem C1_once_guarded_effects_idempotent :
    (∀ (sceneKey id k : String) (amt : ℤ) (gs : GState),
      lineAddHelpRun sceneKey id k amt (lineAddHelpRun sceneKey id k amt gs)
        = lineAddHelpRun sceneKey id k amt gs)
  ∧ (∀ (sceneKey id : String) (i : ℕ) (hsRaw : PropVal) (gs : GState),
      choiceHelpScoreRun sceneKey id i hsRaw (choiceHelpScoreRun sceneKey id i hsRaw gs)
        = choiceHelpScoreRun sceneKey id i hsRaw gs)
  ∧ (lineAddHelpRun "PartyScene" "npc1" "dialogue" 10
      (lineAddHelpRun "PartyScene" "npc1" "dialogue" 10 gs0)).helpScore = 10
  ∧ (choiceHelpScoreRun "PartyScene" "npc1" 1 (.n 10)
      (choiceHelpScoreRun "PartyScene" "npc1" 1 (.n 10) gs0)).helpScore = 10 := by
  refine ⟨?_, ?_, ?_, ?_⟩
  · intro sceneKey id k amt gs
    unfold lineAddHelpRun
    by_cases h : gs.flags (lineOnceFlag sceneKey id k "addhelp" "") = some (.b true)
    · simp [h]
    · rw [if_neg h]
      have h2 : (addHelpFn (amt : ℚ)
          (setAnyFlag gs (lineOnceFlag sceneKey id k "addhelp" "") (.b true))).flags
            (lineOnceFlag sceneKey id k "addhelp" "") = some (.b true) := by
        simp [addHelpFn, setAnyFlag]
      rw [if_pos h2]
  · intro sceneKey id i hsRaw gs
    unfold choiceHelpScoreRun
    by_cases h : jsTruthy (gs.flags (choiceHsKey sceneKey id i)) = true
    · simp [h]
    · rw [if_neg h]
      have hflags : ∀ r : GState,
          r.flags = (setAnyFlag gs (choiceHsKey sceneKey id i) (.b true)).flags →
          jsTruthy (r.flags (choiceHsKey sceneKey id i)) = true := by
        intro r hr
        rw [hr]
        simp [setAnyFlag, jsTruthy]
      cases hn : jsNum (some hsRaw) with
      | none =>
        simp only [hn]
        rw [if_pos (hflags _ rfl)]
      | some d =>
        simp only [hn]
        by_cases hd : d ≠ 0
        · rw [if_pos hd]
          rw [if_pos (hflags _ rfl)]
        · rw [if_neg hd]
          rw [if_pos (hflags _ rfl)]
  · show (lineAddHelpRun "PartyScene" "npc1" "dialogue" 10
      (lineAddHelpRun "PartyScene" "npc1" "dialogue" 10 gs0)).helpScore = 10
    simp +decide [lineAddHelpRun, lineOnceFlag, addHelpFn, setAnyFlag, gs0]
  · show (choiceHelpScoreRun "PartyScene" "npc1" 1 (.n 10)
      (choiceHelpScoreRun "PartyScene" "npc1" 1 (.n 10) gs0)).helpScore = 10
    simp +decide [choiceHelpScoreRun, choiceHsKey, setAnyFlag, gs0, jsTruthy, jsNum]

-- NPC waypoint-arrival lemmas for C7

lemma npcTick_arrive (st : NpcState) (tx ty : ℝ)
    (hm : st.moving = true) (hpts : st.pts = [(tx, ty)]) (hidx : st.idx = 0)
    (hA : arrivalCond st tx ty) :
    npcTick st
      = { st with idx := st.idx + 1, x := tx, y := ty, vx := 0, vy := 0,
                  moving := false } := by
  unfold npcTick
  rw [if_neg (by simp [hm])]
  rw [if_neg (by simp [hpts, hidx])]
  have hget : st.pts.get? st.idx = some (tx, ty) := by simp [hpts, hidx]
  rw [hget]
  simp only []
  rw [if_pos (show Real.sqrt ((tx - st.x) ^ 2 + (ty - st.y) ^ 2) ≤ effArrive st
      ∨ (|tx - st.x| ≤ effArrive st ∧ |ty - st.y| ≤ effArrive st) from hA)]
  rw [if_pos (by simp [hpts, hidx])]

lemma npcTick_move (st : NpcState) (tx ty : ℝ)
    (hm : st.moving = true) (hpts : st.pts = [(tx, ty)]) (hidx : st.idx = 0)
    (hA : ¬ arrivalCond st tx ty) :
    npcTick st
      = { st with
          vx := (tx - st.x) / Real.sqrt ((tx - st.x) ^ 2 + (ty - st.y) ^ 2) * effSpeed st,
          vy := (ty - st.y) / Real.sqrt ((tx - st.x) ^ 2 + (ty - st.y) ^ 2) * effSpeed st } := by
  unfold npcTick
  rw [if_neg (by simp [hm])]
  rw [if_neg (by simp [hpts, hidx])]
  have hget : st.pts.get? st.idx = some (tx, ty) := by simp [hpts, hidx]
  rw [hget]
  simp only []
  rw [if_neg (show ¬ (Real.sqrt ((tx - st.x) ^ 2 + (ty - st.y) ^ 2) ≤ effArrive st
      ∨ (|tx - st.x| ≤ effArrive st ∧ |ty - st.y| ≤ effArrive st)) from hA)]

lemma npcFrame_arrive (dt : ℝ) (st : NpcState) (tx ty : ℝ)
    (hm : st.moving = true) (hpts : st.pts = [(tx, ty)]) (hidx : st.idx = 0)
    (hA : arrivalCond st tx ty) :
    (npcFrame dt st).x = tx ∧ (npcFrame dt st).y = ty
      ∧ (npcFrame dt st).moving = false := by
  unfold npcFrame physicsStep
  rw [npcTick_arrive st tx ty hm hpts hidx hA]
  refine ⟨?_, ?_, rfl⟩ <;> simp

lemma dist_after_move (x y tx ty δ : ℝ)
    (hD : 0 < Real.sqrt ((tx - x) ^ 2 + (ty - y) ^ 2))
    (_hδ0 : 0 ≤ δ) (hδle : δ ≤ Real.sqrt ((tx - x) ^ 2 + (ty - y) ^ 2)) :
    Real.sqrt
      ((tx - (x + (tx - x) / Real.sqrt ((tx - x) ^ 2 + (ty - y) ^ 2) * δ)) ^ 2
        + (ty - (y + (ty - y) / Real.sqrt ((tx - x) ^ 2 + (ty - y) ^ 2) * δ)) ^ 2)
      = Real.sqrt ((tx - x) ^ 2 + (ty - y) ^ 2) - δ := by
  set D := Real.sqrt ((tx - x) ^ 2 + (ty - y) ^ 2) with hDdef
  have hDD : D ^ 2 = (tx - x) ^ 2 + (ty - y) ^ 2 := Real.sq_sqrt (by positivity)
  have hDne : D ≠ 0 := ne_of_gt hD
  have h1 : tx - (x + (tx - x) / D * δ) = (tx - x) * (D - δ) / D := by
    field_simp
    ring
  have h2 : ty - (y + (ty - y) / D * δ) = (ty - y) * (D - δ) / D := by
    field_simp
    ring
  rw [h1, h2]
  have h3 : ((tx - x) * (D - δ) / D) ^ 2 + ((ty - y) * (D - δ) / D) ^ 2
      = ((tx - x) ^ 2 + (ty - y) ^ 2) * (D - δ) ^ 2 / D ^ 2 := by
    field_simp
    ring
  rw [h3, ← hDD]
  have h4 : D ^ 2 * (D - δ) ^ 2 / D ^ 2 = (D - δ) ^ 2 := by field_simp
  rw [h4, Real.sqrt_sq (by linarith)]

lemma npc_single_waypoint_converges (dt tx ty : ℝ) :
    ∀ (k : ℕ) (st : NpcState), st.moving = true → st.pts = [(tx, ty)] → st.idx = 0 →
      0 < dt → dt * effSpeed st ≤ effArrive st →
      Real.sqrt ((tx - st.x) ^ 2 + (ty - st.y) ^ 2)
        ≤ effArrive st + k * (dt * effSpeed st) →
      ∃ n, ((npcFrame dt)^[n] st).x = tx ∧ ((npcFrame dt)^[n] st).y = ty
        ∧ ((npcFrame dt)^[n] st).moving = false := by
  intro k
  induction k with
  | zero =>
    intro st hm hpts hidx _hdt _hδ hdist
    refine ⟨1, ?_⟩
    rw [Function.iterate_one]
    exact npcFrame_arrive dt st tx ty hm hpts hidx
      (Or.inl (by simpa using hdist))
  | succ k ih =>
    intro st hm hpts hidx hdt hδ hdist
    by_cases hA : arrivalCond st tx ty
    · refine ⟨1, ?_⟩
      rw [Function.iterate_one]
      exact npcFrame_arrive dt st tx ty hm hpts hidx hA
    · have hfar : effArrive st < Real.sqrt ((tx - st.x) ^ 2 + (ty - st.y) ^ 2) := by
        by_contra hcon
        exact hA (Or.inl (not_lt.mp hcon))
      have harrpos : (0 : ℝ) < effArrive st := by
        unfold effArrive
        have : (6 : ℝ) ≤ max 6 (if st.arriveDist = 0 then 2 else st.arriveDist) :=
          le_max_left _ _
        linarith
      have hDpos : 0 < Real.sqrt ((tx - st.x) ^ 2 + (ty - st.y) ^ 2) := by linarith
      have hspd : (0 : ℝ) < effSpeed st := by
        unfold effSpeed
        have : (1 : ℝ) ≤ max 1 (if st.speed = 0 then 40 else st.speed) := le_max_left _ _
        linarith
      have hδpos : 0 < dt * effSpeed st := mul_pos hdt hspd
      have hframe : npcFrame dt st
          = { st with
              x := st.x + (tx - st.x) / Real.sqrt ((tx - st.x) ^ 2 + (ty - st.y) ^ 2)
                    * effSpeed st * dt,
              y := st.y + (ty - st.y) / Real.sqrt ((tx - st.x) ^ 2 + (ty - st.y) ^ 2)
                    * effSpeed st * dt,
              vx := (tx - st.x) / Real.sqrt ((tx - st.x) ^ 2 + (ty - st.y) ^ 2)
                    * effSpeed st,
              vy := (ty - st.y) / Real.sqrt ((tx - st.x) ^ 2 + (ty - st.y) ^ 2)
                    * effSpeed st } := by
        unfold npcFrame physicsStep
        rw [npcTick_move st tx ty hm hpts hidx hA]
      have heffA : effArrive (npcFrame dt st) = effArrive st := by
        rw [hframe]; unfold effArrive; rfl
      have heffS : effSpeed (npcFrame dt st) = effSpeed st := by
        rw [hframe]; unfold effSpeed; rfl
      have hdist' :
          Real.sqrt ((tx - (npcFrame dt st).x) ^ 2 + (ty - (npcFrame dt st).y) ^ 2)
            = Real.sqrt ((tx - st.x) ^ 2 + (ty - st.y) ^ 2) - dt * effSpeed st := by
        rw [hframe]
        simp only []
        have hx : st.x + (tx - st.x) / Real.sqrt ((tx - st.x) ^ 2 + (ty - st.y) ^ 2)
              * effSpeed st * dt
            = st.x + (tx - st.x) / Real.sqrt ((tx - st.x) ^ 2 + (ty - st.y) ^ 2)
              * (dt * effSpeed st) := by ring
        have hy : st.y + (ty - st.y) / Real.sqrt ((tx - st.x) ^ 2 + (ty - st.y) ^ 2)
              * effSpeed st * dt
            = st.y + (ty - st.y) / Real.sqrt ((tx - st.x) ^ 2 + (ty - st.y) ^ 2)
              * (dt * effSpeed st) := by ring
        rw [hx, hy]
        exact dist_after_move st.x st.y tx ty (dt * effSpeed st) hDpos hδpos.le
          (by linarith)
      have hm' : (npcFrame dt st).moving = true := by rw [hframe]; exact hm
      have hpts' : (npcFrame dt st).pts = [(tx, ty)] := by rw [hframe]; exact hpts
      have hidx' : (npcFrame dt st).idx = 0 := by rw [hframe]; exact hidx
      have hδ' : dt * effSpeed (npcFrame dt st) ≤ effArrive (npcFrame dt st) := by
        rw [heffS, heffA]; exact hδ
      have hdist'' :
          Real.sqrt ((tx - (npcFrame dt st).x) ^ 2 + (ty - (npcFrame dt st).y) ^ 2)
            ≤ effArrive (npcFrame dt st) + k * (dt * effSpeed (npcFrame dt st)) := by
        rw [hdist', heffA, heffS]
        have : (↑(k + 1) : ℝ) * (dt * effSpeed st)
            = k * (dt * effSpeed st) + dt * effSpeed st := by
          push_cast
          ring
        rw [this] at hdist
        linarith
      obtain ⟨n, hn⟩ := ih (npcFrame dt st) hm' hpts' hidx' hdt hδ' hdist''
      refine ⟨n + 1, ?_⟩
      rw [Function.iterate_succ_apply]
      exact hn

/-- C7: an NPC registered with a single waypoint ends exactly at the
waypoint: on the tick where the arrival condition is met the sprite is
snapped to the waypoint coordinates (not merely within tolerance) and the
moving-NPC map entry is removed in that same tick; and under physics steps
of size `dt` (with the per-frame travel `dt * speed` within the arrival
tolerance), enough frames always reach that snapped, not-moving state. -/
theorem C7_waypoint_exact_arrival (st : NpcState) (tx ty dt : ℝ)
    (hm : st.moving = true) (hpts : st.pts = [(tx, ty)]) (hidx : st.idx = 0)
    (hdt : 0 < dt) (hδ : dt * effSpeed st ≤ effArrive st) :
    (arrivalCond st tx ty →
      (npcTick st).x = tx ∧ (npcTick st).y = ty ∧ (npcTick st).moving = false)
  ∧ (∃ n, ((npcFrame dt)^[n] st).x = tx ∧ ((npcFrame dt)^[n] st).y = ty
      ∧ ((npcFrame dt)^[n] st).moving = false) := by
  constructor
  · intro hA
    rw [npcTick_arrive st tx ty hm hpts hidx hA]
    exact ⟨rfl, rfl, rfl⟩
  · have hspd : (0 : ℝ) < effSpeed st := by
      unfold effSpeed
      have : (1 : ℝ) ≤ max 1 (if st.speed = 0 then 40 else st.speed) := le_max_left _ _
      linarith
    have hδpos : 0 < dt * effSpeed st := mul_pos hdt hspd
    refine npc_single_waypoint_converges dt tx ty
      (Nat.ceil ((Real.sqrt ((tx - st.x) ^ 2 + (ty - st.y) ^ 2) - effArrive st)
        / (dt * effSpeed st))) st hm hpts hidx hdt hδ ?_
    by_cases hd : Real.sqrt ((tx - st.x) ^ 2 + (ty - st.y) ^ 2) ≤ effArrive st
    · have hk : (0 : ℝ) ≤ (Nat.ceil ((Real.sqrt ((tx - st.x) ^ 2 + (ty - st.y) ^ 2)
          - effArrive st) / (dt * effSpeed st)) : ℝ) * (dt * effSpeed st) := by
        positivity
      linarith
    · have h1 := Nat.le_ceil ((Real.sqrt ((tx - st.x) ^ 2 + (ty - st.y) ^ 2)
        - effArrive st) / (dt * effSpeed st))
      rw [div_le_iff₀ hδpos] at h1
      linarith

/-- C7 witness: an NPC at the origin with the single waypoint (8, 0),
speed 2, default arrival tolerance and frame duration 1 reaches exactly
(8, 0) and is cleared from the moving map. -/
theorem C7_waypoint_witness :
    let st : NpcState := { x := 0, y := 0, vx := 0, vy := 0, pts := [(8, 0)],
                           idx := 0, speed := 2, arriveDist := 0, moving := true }
    ∃ n, ((npcFrame 1)^[n] st).x = 8 ∧ ((npcFrame 1)^[n] st).y = 0
      ∧ ((npcFrame 1)^[n] st).moving = false := by
  intro st
  refine (C7_waypoint_exact_arrival st 8 0 1 rfl rfl rfl (by norm_num) ?_).2
  show (1 : ℝ) * effSpeed st ≤ effArrive st
  unfold effSpeed effArrive
  norm_num [st]

-- Progressive post-help dialogue lemmas for C3

lemma flatten_map_of_singletons {α β : Type} (g : α → List β) (f : α → β) :
    ∀ l : List α, (∀ k ∈ l, g k = [f k]) → (l.map g).flatten = l.map f := by
  intro l
  induction l with
  | nil => intro _; simp
  | cons a l ih =>
    intro h
    simp only [List.map_cons, List.flatten_cons, h a (by simp)]
    rw [ih (fun k hk => h k (by simp [hk]))]
    rfl

/-- Under the amended hypotheses the built post-dialogue script is exactly
one say step per collected key. -/
lemma buildDialogueScript_say_shape (props : PropTable) (baseSpeaker pfx id : String)
    (hp : jsTrim pfx ≠ "")
    (hkeys : getNumberedKeys props (jsTrim pfx) ≠ [])
    (hmeta : ∀ k ∈ getNumberedKeys props (jsTrim pfx), lineMetaSteps props id k = [])
    (htxt : ∀ k ∈ getNumberedKeys props (jsTrim pfx), jsTrim (jsStr (props k)) ≠ "") :
    buildDialogueScript props baseSpeaker pfx id
      = (getNumberedKeys props (jsTrim pfx)).map
          (fun k => DStep.say (resolveLineSpeaker props baseSpeaker (jsTrim pfx) k)
            (jsTrim (jsStr (props k)))) := by
  unfold buildDialogueScript
  simp only []
  rw [if_neg hp, if_neg hkeys]
  apply flatten_map_of_singletons
  intro k hk
  unfold perKeySteps
  simp only []
  rw [if_neg (htxt k hk), hmeta k hk]
  rfl

/-- The visit counter after `j` visits (count key initially absent). -/
lemma iterateVisits_count (props : PropTable) (propKeys : List String)
    (sceneKey id baseSpeaker pfx : String)
    (flags : String → Option PropVal)
    (hscript : buildDialogueScript props baseSpeaker pfx id ≠ [])
    (hflag : flags (postdlgCountKey sceneKey id pfx) = none) :
    ∀ j : ℕ,
      (iterateVisits props propKeys sceneKey id baseSpeaker pfx flags j).1
          (postdlgCountKey sceneKey id pfx)
        = if j = 0 then none else some (.n (j : ℚ)) := by
  intro j
  induction j with
  | zero => simpa [iterateVisits] using hflag
  | succ j ih =>
    rw [iterateVisits]
    unfold progressiveVisit
    simp only []
    rw [if_neg hscript]
    simp only [if_true]
    rw [ih]
    simp only [Nat.succ_ne_zero, if_false]
    by_cases hj : j = 0
    · subst hj
      simp [jsNumOr]
    · rw [if_neg hj]
      simp only [jsNumOr, jsNum, Option.getD_some]
      push_cast
      ring_nf

/-- The progressive count key always starts with an underscore. -/
lemma postdlgCountKey_head (sceneKey id p : String) :
    (postdlgCountKey sceneKey id p).data.head? = some '_' := by
  unfold postdlgCountKey
  simp [String.data_append]

/-- Any string not starting with an underscore differs from the count key. -/
lemma ne_postdlgCountKey_of_head (sceneKey id p t : String)
    (ht : t.data.head? ≠ some '_') : t ≠ postdlgCountKey sceneKey id p := by
  intro h
  exact ht (by rw [h, postdlgCountKey_head])

/-- Follower-key selection only reads the four follower flags. -/
lemma selectFollowerBaseKey_agree (g g' : String → Option PropVal)
    (props : PropTable) (b : String)
    (h1 : g "aloiseFollowing" = g' "aloiseFollowing")
    (h2 : g "aloiseJoined" = g' "aloiseJoined")
    (h3 : g "sagaJoined" = g' "sagaJoined")
    (h4 : g "sagaFollowing" = g' "sagaFollowing") :
    selectFollowerBaseKey g props b = selectFollowerBaseKey g' props b := by
  unfold selectFollowerBaseKey
  rw [h1, h2, h3, h4]

/-- When no follower base key is selected, the replace-mode
`appendFollowerDialogue` leaves the script untouched. -/
lemma appendFollowerDialogueReplace_id (props : PropTable)
    (g : String → Option PropVal) (script : List DStep)
    (h : selectFollowerBaseKey g props "followdialogue" = "") :
    appendFollowerDialogueReplace props g script = script := by
  unfold appendFollowerDialogueReplace
  simp only []
  rw [h]
  simp

/-- Visits write only the count key: every other flag is preserved. -/
lemma iterateVisits_outside (props : PropTable) (propKeys : List String)
    (sceneKey id baseSpeaker pfx : String) (flags : String → Option PropVal)
    (t : String) (ht : t ≠ postdlgCountKey sceneKey id pfx) :
    ∀ j : ℕ,
      (iterateVisits props propKeys sceneKey id baseSpeaker pfx flags j).1 t
        = flags t := by
  intro j
  induction j with
  | zero => rfl
  | succ j ih =>
    rw [iterateVisits]
    unfold progressiveVisit
    simp only []
    by_cases hs : buildDialogueScript props baseSpeaker pfx id = []
    · rw [if_pos hs]
      by_cases hf : hasFollowerDialogueProps propKeys = true
      · rw [if_pos hf]
        exact ih
      · rw [if_neg hf]
        exact ih
    · rw [if_neg hs]
      simp only []
      rw [if_neg ht]
      exact ih

/-- The no-applicable-follower-dialogue condition is invariant across
visits (only the count key is ever written). -/
lemma iterateVisits_nofollow (props : PropTable) (propKeys : List String)
    (sceneKey id baseSpeaker pfx : String) (flags : String → Option PropVal)
    (hnf : selectFollowerBaseKey flags props "followdialogue" = "") (j : ℕ) :
    selectFollowerBaseKey
        ((iterateVisits props propKeys sceneKey id baseSpeaker pfx flags j).1)
        props "followdialogue" = "" := by
  rw [selectFollowerBaseKey_agree
      ((iterateVisits props propKeys sceneKey id baseSpeaker pfx flags j).1) flags props
      "followdialogue"
      (iterateVisits_outside props propKeys sceneKey id baseSpeaker pfx flags
        "aloiseFollowing" (ne_postdlgCountKey_of_head _ _ _ _ (by decide)) j)
      (iterateVisits_outside props propKeys sceneKey id baseSpeaker pfx flags
        "aloiseJoined" (ne_postdlgCountKey_of_head _ _ _ _ (by decide)) j)
      (iterateVisits_outside props propKeys sceneKey id baseSpeaker pfx flags
        "sagaJoined" (ne_postdlgCountKey_of_head _ _ _ _ (by decide)) j)
      (iterateVisits_outside props propKeys sceneKey id baseSpeaker pfx flags
        "sagaFollowing" (ne_postdlgCountKey_of_head _ _ _ _ (by decide)) j)]
  exact hnf

/-- Bumping the count key cannot make a follower base key become selected. -/
lemma selectFollowerBaseKey_bump (props : PropTable) (g : String → Option PropVal)
    (sceneKey id p : String) (v : Option PropVal)
    (h : selectFollowerBaseKey g props "followdialogue" = "") :
    selectFollowerBaseKey
        (fun k' => if k' = postdlgCountKey sceneKey id p then v else g k')
        props "followdialogue" = "" := by
  rw [selectFollowerBaseKey_agree _ g props "followdialogue"
      (if_neg (ne_postdlgCountKey_of_head sceneKey id p "aloiseFollowing" (by decide)))
      (if_neg (ne_postdlgCountKey_of_head sceneKey id p "aloiseJoined" (by decide)))
      (if_neg (ne_postdlgCountKey_of_head sceneKey id p "sagaJoined" (by decide)))
      (if_neg (ne_postdlgCountKey_of_head sceneKey id p "sagaFollowing" (by decide)))]
  exact h

/-- C3 (counterexamples): first, when a line of the post-dialogue group
carries a line-level property (here `postdialoguesfx`), the built script
interleaves action steps with say lines, and the progressive selector
indexes script steps, not lines: the first visit shows the sfx action
step — no dialogue line at all — instead of line 1 ("a") as the claim
requires.  Second, when follower-dialogue props exist and a follower flag
is set, `appendFollowerDialogue` (default replace mode) discards the
selected line: the first visit shows the follower pause and say steps,
again not line 1. -/
theorem C3_counterexample :
    buildDialogueScript
        (tableOf [("postdialogue", .s "a"), ("postdialoguesfx", .s "ding"),
          ("postdialogue2", .s "b")]) "" "postdialogue" "npc"
      = [DStep.action (.sfx "ding"), DStep.say "" "a", DStep.say "" "b"]
  ∧ (iterateVisits
        (tableOf [("postdialogue", .s "a"), ("postdialoguesfx", .s "ding"),
          ("postdialogue2", .s "b")])
        ["postdialogue", "postdialoguesfx", "postdialogue2"]
        "S" "npc" "" "postdialogue" (fun _ => none) 1).2
      = [DStep.action (.sfx "ding"), DStep.done]
  ∧ (iterateVisits
        (tableOf [("postdialogue", .s "a"), ("postdialogue2", .s "b"),
          ("followdialogue", .s "Saga: hey")])
        ["postdialogue", "postdialogue2", "followdialogue"]
        "S" "npc" "" "postdialogue"
        (fun k => if k = "sagaJoined" then some (.b true) else none) 1).2
      = [DStep.pause 250, DStep.say "Saga" "hey", DStep.done] := by
  refine ⟨by decide, ?_, ?_⟩
  · simp +decide [iterateVisits, progressiveVisit, postdlgCountKey, jsNumOr,
      appendFollowerDialogueReplace, selectFollowerBaseKey, followTruthy]
  · simp +decide [iterateVisits, progressiveVisit, postdlgCountKey, jsNumOr,
      appendFollowerDialogueReplace, selectFollowerBaseKey, followTruthy,
      followPauseMs, clampIntQ, jsTrunc, parseSpeakerInline]

/-- C3 (amended): for an already-helped interaction in progressive (non
sequence) mode, provided every collected line of the selected
post-dialogue group has nonempty text and carries no line-level
meta-action property (sfx / giveitem / addhelp / addscore), and provided
no follower dialogue applies (no follower base key is selected for the
given props and flags, so the replace-mode `appendFollowerDialogue` call
leaves the script alone), the `K`-th visit starts exactly the say step of
line `min(K, lineCount)` followed by the `end` step: line `K` while
`K ≤ lineCount`, and the last line on every later visit. -/
theorem C3_progressive_line_per_visit (props : PropTable) (propKeys : List String)
    (sceneKey id baseSpeaker pfx : String) (flags : String → Option PropVal)
    (hp : jsTrim pfx ≠ "")
    (hkeys : getNumberedKeys props (jsTrim pfx) ≠ [])
    (hmeta : ∀ k ∈ getNumberedKeys props (jsTrim pfx), lineMetaSteps props id k = [])
    (htxt : ∀ k ∈ getNumberedKeys props (jsTrim pfx), jsTrim (jsStr (props k)) ≠ "")
    (hflag : flags (postdlgCountKey sceneKey id pfx) = none)
    (hnf : selectFollowerBaseKey flags props "followdialogue" = "") :
    ∀ K : ℕ, 1 ≤ K →
      (iterateVisits props propKeys sceneKey id baseSpeaker pfx flags K).2
        = (((getNumberedKeys props (jsTrim pfx)).get?
              (min K (getNumberedKeys props (jsTrim pfx)).length - 1)).toList.map
            (fun k => DStep.say (resolveLineSpeaker props baseSpeaker (jsTrim pfx) k)
              (jsTrim (jsStr (props k))))) ++ [DStep.done] := by
  intro K hK
  obtain ⟨j, rfl⟩ : ∃ j, K = j + 1 := ⟨K - 1, by omega⟩
  have hshape := buildDialogueScript_say_shape props baseSpeaker pfx id hp hkeys hmeta htxt
  have hscript : buildDialogueScript props baseSpeaker pfx id ≠ [] := by
    rw [hshape]
    simpa using hkeys
  rw [iterateVisits]
  unfold progressiveVisit
  simp only []
  rw [if_neg hscript]
  rw [appendFollowerDialogueReplace_id props _ _
      (selectFollowerBaseKey_bump props _ sceneKey id pfx _
        (iterateVisits_nofollow props propKeys sceneKey id baseSpeaker pfx flags hnf j))]
  rw [iterateVisits_count props propKeys sceneKey id baseSpeaker pfx flags hscript hflag j]
  have hlen1 : 1 ≤ (getNumberedKeys props (jsTrim pfx)).length :=
    List.length_pos.mpr hkeys
  have hn : jsNumOr (if j = 0 then none else some (.n (j : ℚ))) 0 + 1
      = ((j + 1 : ℕ) : ℚ) := by
    by_cases hj : j = 0
    · subst hj
      simp [jsNumOr]
    · rw [if_neg hj]
      simp only [jsNumOr, jsNum, Option.getD_some]
      push_cast
      ring
  rw [hn]
  have hslen : (buildDialogueScript props baseSpeaker pfx id).length
      = (getNumberedKeys props (jsTrim pfx)).length := by
    rw [hshape, List.length_map]
  rw [hslen]
  have hidx : (⌊min ((j + 1 : ℕ) : ℚ)
        (((getNumberedKeys props (jsTrim pfx)).length : ℕ) : ℚ) - 1⌋).toNat
      = min (j + 1) (getNumberedKeys props (jsTrim pfx)).length - 1 := by
    rw [← Nat.cast_min]
    have hc : ((min (j + 1) (getNumberedKeys props (jsTrim pfx)).length : ℕ) : ℚ) - 1
        = (((min (j + 1) (getNumberedKeys props (jsTrim pfx)).length : ℕ) : ℤ) - 1 : ℤ) := by
      push_cast
      ring
    rw [hc, Int.floor_intCast]
    omega
  rw [hidx, hshape]
  simp only [List.get?_eq_getElem?, List.getElem?_map]
  cases (getNumberedKeys props (jsTrim pfx))[min (j + 1)
      (getNumberedKeys props (jsTrim pfx)).length - 1]? <;> simp

/-- C3 witness: two nonempty post-dialogue lines without meta actions and
with no applicable follower dialogue; the third visit (beyond the line
count) keeps showing line 2, followed by the end step. -/
theorem C3_progressive_line_witness :
    (iterateVisits (tableOf [("postdialogue", .s "a"), ("postdialogue2", .s "b")])
        ["postdialogue", "postdialogue2"]
        "S" "npc" "" "postdialogue" (fun _ => none) 3).2
      = (((getNumberedKeys (tableOf [("postdialogue", .s "a"), ("postdialogue2", .s "b")])
            (jsTrim "postdialogue")).get?
          (min 3 (getNumberedKeys (tableOf [("postdialogue", .s "a"), ("postdialogue2", .s "b")])
            (jsTrim "postdialogue")).length - 1)).toList.map
          (fun k => DStep.say
            (resolveLineSpeaker (tableOf [("postdialogue", .s "a"), ("postdialogue2", .s "b")])
              "" (jsTrim "postdialogue") k)
            (jsTrim (jsStr ((tableOf [("postdialogue", .s "a"), ("postdialogue2", .s "b")]) k)))))
        ++ [DStep.done] :=
  C3_progressive_line_per_visit
    (tableOf [("postdialogue", .s "a"), ("postdialogue2", .s "b")])
    ["postdialogue", "postdialogue2"]
    "S" "npc" "" "postdialogue" (fun _ => none)
    (by decide) (by decide) (by decide) (by decide) rfl (by decide) 3 (by norm_num)

/-- C9: `GameState.realTimeMs` is monotonically non-decreasing under every
per-frame step, and on every frame during which dialogue is active it is
left exactly unchanged (the early-return path of `baseUpdateFrame` skips
`_tickGlobalRealTime`). -/
theorem C9_realtime_monotone_paused_in_dialogue
    (dialogueActive : Bool) (rt delta : ℚ) :
    rt ≤ frameRealTime dialogueActive rt delta
  ∧ (dialogueActive = true → frameRealTime dialogueActive rt delta = rt) := by
  constructor
  · unfold frameRealTime tickGlobalRealTime
    split
    · exact le_refl rt
    · split
      · exact le_refl rt
      · rename_i hpos
        linarith [not_le.mp hpos]
  · intro h
    simp [frameRealTime, h]

/-- C9 witness: at a concrete frame, the clock never decreases and is
exactly unchanged while dialogue is active. -/
theorem C9_realtime_witness :
    (5 : ℚ) ≤ frameRealTime false 5 16 ∧ frameRealTime true 5 16 = 5 :=
  ⟨(C9_realtime_monotone_paused_in_dialogue false 5 16).1,
   (C9_realtime_monotone_paused_in_dialogue true 5 16).2 rfl⟩

/-- C5: two deny-zone enter events whose second occurs within the first
zone's configured cooldown window (default 600 ms) after the first produce
exactly one feedback event: the first enter (with the scene-wide cooldown
expired) emits feedback and re-arms the cooldown, the second emits none —
regardless of which deny zone of the scene the second enter hits (its
properties, center, position and rewind state may all differ). -/
theorem C5_deny_cooldown_single_feedback
    (props1 props2 : PropTable) (u t1 t2 : ℚ)
    (c1x c1y p1x p1y c2x c2y p2x p2y : ℝ)
    (prev1 prev2 : Option (ℝ × ℝ))
    (h0 : u ≤ t1) (_h12 : t1 ≤ t2) (hwin : t2 < t1 + denyCooldownMs props1) :
    (denyResolve props1 u t1 c1x c1y p1x p1y prev1).1 = true
  ∧ (denyResolve props2 (denyResolve props1 u t1 c1x c1y p1x p1y prev1).2.1 t2
      c2x c2y p2x p2y prev2).1 = false
  ∧ denyCooldownMs (tableOf []) = 600 := by
  refine ⟨?_, ?_, ?_⟩
  · simp [denyResolve, h0]
  · have huntil : (denyResolve props1 u t1 c1x c1y p1x p1y prev1).2.1
        = t1 + denyCooldownMs props1 := by
      simp [denyResolve, h0]
    rw [huntil]
    simp [denyResolve, not_le.mpr hwin]
  · simp [denyCooldownMs, jsNumOr, tableOf]

/-- C5 witness: with the default 600 ms cooldown, entries at t=100 and
t=400 produce exactly one feedback. -/
theorem C5_deny_cooldown_witness :
    (denyResolve (tableOf []) 0 100 0 0 3 4 none).1 = true
  ∧ (denyResolve (tableOf []) (denyResolve (tableOf []) 0 100 0 0 3 4 none).2.1 400
      10 10 12 11 (some (9, 9))).1 = false
  ∧ denyCooldownMs (tableOf []) = 600 := by
  refine C5_deny_cooldown_single_feedback (tableOf []) (tableOf []) 0 100 400
    0 0 3 4 10 10 12 11 none (some (9, 9)) (by norm_num) (by norm_num) ?_
  have h : denyCooldownMs (tableOf []) = 600 := by simp [denyCooldownMs, jsNumOr, tableOf]
  rw [h]
  norm_num

/-- C6: for a deny zone with `denyMode=push` and `denyPush=12`, an actor
entering (cooldown expired, not exactly at the zone center) is corrected
to the point displaced from its entry position by exactly distance 12
along the outward direction from the zone center: the corrected position
lies on the ray from the center through the entry point, at distance
(original distance + 12) from the center. -/
theorem C6_deny_push_distance (props : PropTable) (u now : ℚ) (cx cy px py : ℝ)
    (prev : Option (ℝ × ℝ))
    (hmode : denyMode props = "push") (hpush : denyPushAmt props = 12)
    (hcool : u ≤ now) (hne : (px, py) ≠ (cx, cy)) :
    let r := denyResolve props u now cx cy px py prev
    r.1 = true
  ∧ dist2 r.2.2.1 r.2.2.2 px py = 12
  ∧ dist2 r.2.2.1 r.2.2.2 cx cy = dist2 px py cx cy + 12
  ∧ r.2.2.1 - cx = (1 + 12 / dist2 px py cx cy) * (px - cx)
  ∧ r.2.2.2 - cy = (1 + 12 / dist2 px py cx cy) * (py - cy) := by
  intro r
  have hne' : px ≠ cx ∨ py ≠ cy := by
    by_contra hcon
    push_neg at hcon
    exact hne (by rw [hcon.1, hcon.2])
  have hS : 0 < (px - cx) ^ 2 + (py - cy) ^ 2 := by
    rcases hne' with h | h
    · have h1 : 0 < (px - cx) ^ 2 := pow_two_pos_of_ne_zero (sub_ne_zero.mpr h)
      have h2 : 0 ≤ (py - cy) ^ 2 := sq_nonneg _
      linarith
    · have h1 : 0 < (py - cy) ^ 2 := pow_two_pos_of_ne_zero (sub_ne_zero.mpr h)
      have h2 : 0 ≤ (px - cx) ^ 2 := sq_nonneg _
      linarith
  have hD : 0 < Real.sqrt ((px - cx) ^ 2 + (py - cy) ^ 2) := Real.sqrt_pos.mpr hS
  have hDD : Real.sqrt ((px - cx) ^ 2 + (py - cy) ^ 2) ^ 2
      = (px - cx) ^ 2 + (py - cy) ^ 2 := Real.sq_sqrt hS.le
  have hr : r = (true, now + denyCooldownMs props,
      (px + (px - cx) / Real.sqrt ((px - cx) ^ 2 + (py - cy) ^ 2) * 12,
       py + (py - cy) / Real.sqrt ((px - cx) ^ 2 + (py - cy) ^ 2) * 12)) := by
    show denyResolve props u now cx cy px py prev = _
    rw [denyResolve.eq_def, if_pos hcool]
    rw [if_pos hmode, hpush]
    rw [pushResolve]
    simp only [if_neg (ne_of_gt hD)]
    norm_num
  set D := Real.sqrt ((px - cx) ^ 2 + (py - cy) ^ 2) with hDdef
  have hq : r.2.2 = (px + (px - cx) / D * 12, py + (py - cy) / D * 12) := by rw [hr]
  have hDne : D ≠ 0 := ne_of_gt hD
  refine ⟨by rw [hr], ?_, ?_, ?_, ?_⟩
  · rw [hq]
    unfold dist2
    have hinner :
        (px + (px - cx) / D * 12 - px) ^ 2 + (py + (py - cy) / D * 12 - py) ^ 2
          = 12 ^ 2 := by
      have : (px + (px - cx) / D * 12 - px) ^ 2 + (py + (py - cy) / D * 12 - py) ^ 2
          = 144 * ((px - cx) ^ 2 + (py - cy) ^ 2) / D ^ 2 := by
        field_simp
        ring
      rw [this, ← hDD]
      field_simp
      norm_num
    rw [hinner, Real.sqrt_sq (by norm_num : (0 : ℝ) ≤ 12)]
  · rw [hq]
    unfold dist2
    have hinner :
        (px + (px - cx) / D * 12 - cx) ^ 2 + (py + (py - cy) / D * 12 - cy) ^ 2
          = (D + 12) ^ 2 := by
      have hstep : ∀ a : ℝ, a + (a - 0) * 0 = a := by intro a; ring
      have h1 : px + (px - cx) / D * 12 - cx = (px - cx) * (D + 12) / D := by
        field_simp
        ring
      have h2 : py + (py - cy) / D * 12 - cy = (py - cy) * (D + 12) / D := by
        field_simp
        ring
      rw [h1, h2]
      have : ((px - cx) * (D + 12) / D) ^ 2 + ((py - cy) * (D + 12) / D) ^ 2
          = ((px - cx) ^ 2 + (py - cy) ^ 2) * (D + 12) ^ 2 / D ^ 2 := by
        field_simp
        ring
      rw [this, ← hDD]
      field_simp
    rw [hinner, Real.sqrt_sq (by positivity)]
  · rw [hq]
    show px + (px - cx) / D * 12 - cx = (1 + 12 / D) * (px - cx)
    field_simp
    ring
  · rw [hq]
    show py + (py - cy) / D * 12 - cy = (1 + 12 / D) * (py - cy)
    field_simp
    ring

/-- C6 witness: zone center (0,0), entry position (3,4) (distance 5),
push 12: the corrected position is distance 12 from the entry and 17 from
the center, on the outward ray. -/
theorem C6_deny_push_witness :
    let props : PropTable := tableOf [("denymode", .s "push"), ("denypush", .n 12)]
    let r := denyResolve props 0 100 0 0 3 4 none
    r.1 = true ∧ dist2 r.2.2.1 r.2.2.2 3 4 = 12
      ∧ dist2 r.2.2.1 r.2.2.2 0 0 = dist2 3 4 0 0 + 12 := by
  intro props r
  have h := C6_deny_push_distance props 0 100 0 0 3 4 none
    (by decide)
    (by decide)
    (by norm_num)
    (by norm_num)
  exact ⟨h.1, h.2.1, h.2.2.1⟩

/-- C8 (counterexample): the claim asserts the FlagKey codecs are
collision-free for all tuples.  Both codecs collide on unequal tuples:
`_flagKey` when a part embeds the `__` separator, and part_003's `flagKey`
when the tuples differ only by an empty (falsy) part dropped by
`filter(Boolean)`. -/
theorem C8_counterexample :
    flagKeyScene "a" ["b__c"] = flagKeyScene "a" ["b", "c"]
  ∧ (("a", ["b__c"]) : String × List String) ≠ ("a", ["b", "c"])
  ∧ flagKeyPipe ["a", "", "b"] = flagKeyPipe ["a", "b"]
  ∧ (["a", "", "b"] : List String) ≠ ["a", "b"] := by
  refine ⟨?_, by decide, ?_, by decide⟩ <;> rfl

/-- C8 (amended): each FlagKey codec is deterministic (it is a pure
function of its tuple), and it is injective on the tuples actually used as
persistence addresses, namely those whose category and parts are nonempty
and free of the reserved separator character (`_` for `_flagKey`, `|` for
part_003's `flagKey`); without that restriction distinct tuples can
collide. -/
theorem C8_flagKey_injective_on_separator_free_parts :
    (∀ (c1 c2 : String) (a1 a2 : List String),
      c1 ≠ "" → charFree '_' c1 → c2 ≠ "" → charFree '_' c2 →
      (∀ x ∈ a1, x ≠ "" ∧ charFree '_' x) → (∀ x ∈ a2, x ≠ "" ∧ charFree '_' x) →
      flagKeyScene c1 a1 = flagKeyScene c2 a2 → c1 = c2 ∧ a1 = a2)
  ∧ (∀ (b1 b2 : List String),
      (∀ x ∈ b1, x ≠ "" ∧ charFree '|' x) → (∀ x ∈ b2, x ≠ "" ∧ charFree '|' x) →
      flagKeyPipe b1 = flagKeyPipe b2 → b1 = b2) := by
  constructor
  · intro c1 c2 a1 a2 hc1 hf1 hc2 hf2 ha1 ha2 hk
    have hdec := congrArg (fun s : String => decodeParts '_' 1 s.data) hk
    simp only at hdec
    rw [flagKeyScene_decode c1 a1 ⟨hc1, hf1⟩ ha1,
        flagKeyScene_decode c2 a2 ⟨hc2, hf2⟩ ha2] at hdec
    obtain ⟨hhead, htail⟩ := List.cons.injEq _ _ _ _ ▸ hdec
    refine ⟨string_data_injective hhead, ?_⟩
    exact List.map_injective_iff.mpr string_data_injective htail
  · intro b1 b2 hb1 hb2 hk
    have hdec := congrArg (fun s : String => decodeParts '|' 0 s.data) hk
    simp only at hdec
    rw [flagKeyPipe_decode b1 hb1, flagKeyPipe_decode b2 hb2] at hdec
    exact List.map_injective_iff.mpr string_data_injective hdec

/-- C8 witness: the restricted injectivity applied at a concrete pair of
equal tuples built from real key components. -/
theorem C8_flagKey_injective_witness :
    ("once" : String) = "once"
      ∧ (["SceneA", "npc1", "dialogue2"] : List String) = ["SceneA", "npc1", "dialogue2"] :=
  C8_flagKey_injective_on_separator_free_parts.1
    "once" "once"
    ["SceneA", "npc1", "dialogue2"] ["SceneA", "npc1", "dialogue2"]
    (by decide) (by decide) (by decide) (by decide) (by decide) (by decide) rfl

end Valentine
